import Mathlib

/-!
Verification of the AI-Assisted Document Generation Pipeline of
PortfolioAI (backend/app/services).  Each Python function relevant to the
checked properties is shallowly embedded as an executable Lean definition
over `List Char` (Python `str`), with external effects (network attempts,
PDF pages, file writes) made explicit as parameters.
-/

/-! ## Basic string helpers (Python semantics) -/

/-- Characters Python's `str.strip()` / regex `\s` treat as whitespace. -/
def isPySpace (c : Char) : Bool :=
  c = ' ' || c = '\t' || c = '\n' || c = '\r' ||
  c = Char.ofNat 0x0b || c = Char.ofNat 0x0c ||
  c = Char.ofNat 0x1c || c = Char.ofNat 0x1d ||
  c = Char.ofNat 0x1e || c = Char.ofNat 0x1f ||
  c = Char.ofNat 0x85 || c = Char.ofNat 0xa0 ||
  c = Char.ofNat 0x1680 ||
  (Char.ofNat 0x2000 ≤ c && c ≤ Char.ofNat 0x200a) ||
  c = Char.ofNat 0x2028 || c = Char.ofNat 0x2029 ||
  c = Char.ofNat 0x202f || c = Char.ofNat 0x205f ||
  c = Char.ofNat 0x3000

/-- Python `str.strip()` on a list of characters. -/
def pyStrip (s : List Char) : List Char :=
  ((s.dropWhile isPySpace).reverse.dropWhile isPySpace).reverse

/-- Does `s` start with the characters `p` (Python `str.startswith`)? -/
def startsWithChars : List Char → List Char → Bool
  | _, [] => true
  | [], _ :: _ => false
  | c :: s, p :: ps => c = p && startsWithChars s ps

/-- Reduction-friendly form: for a cons pattern the match is driven by
the pattern list. -/
theorem startsWithChars_nil (s : List Char) : startsWithChars s [] = true := by
  cases s <;> rfl

/-- Helper for `splitOnNl`: accumulates the current segment (reversed). -/
def splitOnNlGo : List Char → List Char → List (List Char)
  | [], acc => [acc.reverse]
  | c :: rest, acc =>
    if c = '\n' then acc.reverse :: splitOnNlGo rest [] else splitOnNlGo rest (c :: acc)

/-- Python `content.split('\n')`. -/
def splitOnNl (s : List Char) : List (List Char) :=
  splitOnNlGo s []

/-- Python `'\n'.join(lines)`. -/
def joinNl : List (List Char) → List Char
  | [] => []
  | [l] => l
  | l :: rest => l ++ '\n' :: joinNl rest

/-!
## AI Request Orchestrator — `GroqClient._make_request`
(`backend/app/services/groq_client.py`, lines 77-187)

One call makes up to `max_retries + 1` bounded attempts against the Groq
transport.  Each attempt's fate is supplied by an oracle `Nat →
AttemptOutcome` (the state of the network at that attempt):

  * `.success t`       — `asyncio.wait_for` returns a completion whose
                          validity check passes; `t` is the message content;
  * `.invalidResponse` — the completion is falsy / has no `choices`
                          (the `ValueError` at line 141, re-raised by the
                          inner handler and retried by the outer one);
  * `.timeout`         — `asyncio.TimeoutError` from `wait_for`
                          (the in-flight task is cancelled, then retried);
  * `.transportError`  — any other exception from the attempt;
  * `.cancelled`       — `asyncio.CancelledError` reaches the attempt loop
                          (the caller itself was cancelled); in Python ≥3.8
                          it is a `BaseException`, caught only by the
                          dedicated `except asyncio.CancelledError: raise`.
-/

inductive AttemptOutcome
  | success (text : List Char)
  | invalidResponse
  | timeout
  | transportError
  | cancelled
deriving DecidableEq, Repr

/-- How one `_make_request` call ends. `exhaustedTimeout` / `exhaustedError`
are the re-raises at lines 160 and 182 after the final attempt
(`"... after all retries"`); `loopFellThrough` is the `RuntimeError` at
line 187, reachable only if the `for` loop ends without raising. -/
inductive ReqResult
  | success (text : List Char)
  | exhaustedTimeout
  | exhaustedError
  | cancelled
  | notConfigured
  | badMessages
  | loopFellThrough
deriving DecidableEq, Repr

/-- Trace of a `_make_request` call: its result, how many attempts were
started, and the backoff sleeps (in seconds) between consecutive attempts,
in order. -/
structure RunTrace where
  result : ReqResult
  attempts : Nat
  delays : List Nat
deriving DecidableEq, Repr

def maxRetries : Nat := 2

def retryDelay : Nat := 1

/-- The attempt loop `for attempt in range(max_retries + 1)` of
`_make_request`, starting at attempt number `a` with `fuel` loop
iterations left.  `await asyncio.sleep(retry_delay * (attempt + 1))`
is recorded in `delays`. -/
def runAttempts (oracle : Nat → AttemptOutcome) : Nat → Nat → RunTrace
  | a, 0 => ⟨.loopFellThrough, a, []⟩
  | a, fuel + 1 =>
    match oracle a with
    | .success t => ⟨.success t, a + 1, []⟩
    | .cancelled => ⟨.cancelled, a + 1, []⟩
    | .timeout =>
      if a = maxRetries then ⟨.exhaustedTimeout, a + 1, []⟩
      else
        let r := runAttempts oracle (a + 1) fuel
        ⟨r.result, r.attempts, retryDelay * (a + 1) :: r.delays⟩
    | .invalidResponse =>
      if a = maxRetries then ⟨.exhaustedError, a + 1, []⟩
      else
        let r := runAttempts oracle (a + 1) fuel
        ⟨r.result, r.attempts, retryDelay * (a + 1) :: r.delays⟩
    | .transportError =>
      if a = maxRetries then ⟨.exhaustedError, a + 1, []⟩
      else
        let r := runAttempts oracle (a + 1) fuel
        ⟨r.result, r.attempts, retryDelay * (a + 1) :: r.delays⟩

/-- `GroqClient._make_request`: the guard at line 98 (`self.enabled` and
`self.client`), the message-shape validation at lines 105-107, then the
attempt loop. -/
def makeRequest (enabled : Bool) (messagesOk : Bool)
    (oracle : Nat → AttemptOutcome) : RunTrace :=
  if ¬ enabled then ⟨.notConfigured, 0, []⟩
  else if ¬ messagesOk then ⟨.badMessages, 0, []⟩
  else runAttempts oracle 0 (maxRetries + 1)

/-!
## Text Extraction Multiplexer — PDF page loops
(`backend/app/services/resume_processor.py` 181-202 and
`backend/app/services/resume_parser.py` 57-79)

A PDF is abstracted to the list of its pages' behaviours under
`page.extract_text()`: either the call raises, or it returns a string
(possibly empty).
-/

inductive PageOutcome
  | raises
  | text (s : List Char)
deriving DecidableEq, Repr

/-- `ResumeProcessor._extract_text_from_pdf`: the page loop appends
`page_text` when extraction succeeds and the result is truthy (non-empty);
a raising page is skipped (`except ... continue`); when no page
contributed, the `ValueError` at line 197 is raised (modelled `none`);
otherwise the collected texts are joined with `'\n'`. -/
def extractTextFromPdfProcessor (pages : List PageOutcome) : Option (List Char) :=
  let texts := pages.filterMap fun p =>
    match p with
    | .raises => none
    | .text s => if s = [] then none else some s
  if texts = [] then none else some (joinNl texts)

/-- Page fold of `resume_parser.extract_text_from_pdf`:
`text += page.extract_text() + '\n'`; any raising page aborts the whole
loop (the function's `except` returns `None`). -/
def parserPagesConcat : List PageOutcome → Option (List Char)
  | [] => some []
  | .raises :: _ => none
  | .text s :: rest => (parserPagesConcat rest).map (fun t => s ++ '\n' :: t)

/-- `resume_parser.extract_text_from_pdf`: the concatenated page texts,
`.strip()`-ped — the empty string (not an error) when no page yielded
text; `None` when any page raised. -/
def extractTextFromPdfParser (pages : List PageOutcome) : Option (List Char) :=
  (parserPagesConcat pages).map pyStrip

/-!
## Document Renderer — `CVGenerator._create_docx` / `CVGenerator._create_pdf`
(`backend/app/services/cv_generator.py`, lines 235-331)

Both renderers scan `markdown_content.split('\n')`, `str.strip()` each
line and classify it by prefix.  The docx scan keeps a mutable
`current_paragraph`; runs are appended to it, and it is reset on blank
lines and headings.  The python-docx document is modelled as the ordered
list of its elements: headings (with the level passed to `add_heading`)
and paragraphs (bullet = created with `style='List Bullet'`) holding their
runs in order.
-/

inductive DocxElem
  | heading (level : Nat) (text : List Char)
  | para (bullet : Bool) (runs : List (List Char))
deriving DecidableEq, Repr

/-- Scan state of `_create_docx`: elements emitted so far (most recent
first) and the open `current_paragraph` (bullet flag, runs), kept out of
`rev` until it is closed — nothing is ever added behind an open
paragraph, so the element order is the creation order. -/
structure DocxState where
  rev : List DocxElem
  cur : Option (Bool × List (List Char))
deriving DecidableEq, Repr

/-- Close the open paragraph, if any, into the element list. -/
def flushDocx (st : DocxState) : List DocxElem :=
  match st.cur with
  | none => st.rev
  | some (b, runs) => .para b runs :: st.rev

/-- One line of the `_create_docx` loop (lines 244-271). -/
def docxLine (st : DocxState) (line : List Char) : DocxState :=
  let s := pyStrip line
  if s.isEmpty then ⟨flushDocx st, none⟩
  else if startsWithChars s "### ".data then ⟨.heading 3 (s.drop 4) :: flushDocx st, none⟩
  else if startsWithChars s "## ".data then ⟨.heading 2 (s.drop 3) :: flushDocx st, none⟩
  else if startsWithChars s "# ".data then ⟨.heading 1 (s.drop 2) :: flushDocx st, none⟩
  else if startsWithChars s "- ".data then
    match st.cur with
    | some (b, runs) => ⟨st.rev, some (b, runs ++ [s.drop 2])⟩
    | none => ⟨st.rev, some (true, [s.drop 2])⟩
  else
    match st.cur with
    | some (b, runs) => ⟨st.rev, some (b, runs ++ [' ' :: s])⟩
    | none => ⟨st.rev, some (false, [s])⟩

/-- The docx document built from a list of lines. -/
def docxFromLines (lines : List (List Char)) : List DocxElem :=
  (flushDocx (lines.foldl docxLine ⟨[], none⟩)).reverse

/-- `CVGenerator._create_docx` on `markdown_content`. -/
def createDocx (content : List Char) : List DocxElem :=
  docxFromLines (splitOnNl content)

/-- One flow element of the reportlab story built by `_create_pdf`.
`bulletPar` is the Normal-style paragraph whose text was prefixed with the
bullet glyph (line 320); `par` a plain Normal-style paragraph. -/
inductive PdfElem
  | title (text : List Char)
  | heading2 (text : List Char)
  | heading3 (text : List Char)
  | bulletPar (text : List Char)
  | par (text : List Char)
  | spacer (h : Nat)
deriving DecidableEq, Repr

/-- One line of the `_create_pdf` loop (lines 305-325): an element per
non-blank line followed by a 6pt spacer; a 12pt spacer for a blank line. -/
def pdfLine (line : List Char) : List PdfElem :=
  let s := pyStrip line
  if s.isEmpty then [.spacer 12]
  else if startsWithChars s "### ".data then [.heading3 (s.drop 4), .spacer 6]
  else if startsWithChars s "## ".data then [.heading2 (s.drop 3), .spacer 6]
  else if startsWithChars s "# ".data then [.title (s.drop 2), .spacer 6]
  else if startsWithChars s "- ".data then [.bulletPar (s.drop 2), .spacer 6]
  else [.par s, .spacer 6]

/-- The pdf story built from a list of lines. -/
def pdfFromLines (lines : List (List Char)) : List PdfElem :=
  (lines.map pdfLine).flatten

/-- `CVGenerator._create_pdf` on `markdown_content`. -/
def createPdf (content : List Char) : List PdfElem :=
  pdfFromLines (splitOnNl content)

/-! ### Structural counting of rendered artifacts (spec side) -/

/-- Number of docx heading elements of a given level. -/
def docxHeadingCount (lvl : Nat) (elems : List DocxElem) : Nat :=
  elems.countP fun e =>
    match e with
    | .heading l _ => l == lvl
    | _ => false

/-- The bullet lists of a docx document, each as its number of items
(one run per attached bullet line). -/
def docxBulletLists (elems : List DocxElem) : List Nat :=
  elems.filterMap fun e =>
    match e with
    | .para true runs => some runs.length
    | _ => none

def isSpacerElem : PdfElem → Bool
  | .spacer _ => true
  | _ => false

def isBulletElem : PdfElem → Bool
  | .bulletPar _ => true
  | _ => false

/-- The structural (non-spacer) elements of a pdf story. -/
def pdfStructural (elems : List PdfElem) : List PdfElem :=
  elems.filter fun e => !isSpacerElem e

/-- Number of pdf Title (level-1) elements. -/
def pdfTitleCount (elems : List PdfElem) : Nat :=
  elems.countP fun e =>
    match e with
    | .title _ => true
    | _ => false

/-- Number of pdf Heading2 (level-2) elements. -/
def pdfHeading2Count (elems : List PdfElem) : Nat :=
  elems.countP fun e =>
    match e with
    | .heading2 _ => true
    | _ => false

/-- Lengths of the maximal runs of `true` in a boolean list. -/
def trueRunsAux : Nat → List Bool → List Nat
  | cur, [] => if cur = 0 then [] else [cur]
  | cur, true :: rest => trueRunsAux (cur + 1) rest
  | cur, false :: rest => if cur = 0 then trueRunsAux 0 rest else cur :: trueRunsAux 0 rest

def trueRuns (bs : List Bool) : List Nat :=
  trueRunsAux 0 bs

/-- The bullet lists of a pdf story: maximal runs of consecutive
bullet-glyph paragraphs among the structural elements, each as its item
count. -/
def pdfBulletLists (elems : List PdfElem) : List Nat :=
  trueRuns ((pdfStructural elems).map isBulletElem)

/-! ### Line classification (as both renderers do, on stripped lines) -/

def isBlankLine (l : List Char) : Bool := (pyStrip l).isEmpty

def isH3Line (l : List Char) : Bool := startsWithChars (pyStrip l) "### ".data

def isH2Line (l : List Char) : Bool := startsWithChars (pyStrip l) "## ".data

def isH1Line (l : List Char) : Bool := startsWithChars (pyStrip l) "# ".data

def isBulletLine (l : List Char) : Bool := startsWithChars (pyStrip l) "- ".data

/-- A line that closes any open docx paragraph: blank or any heading. -/
def isResetLine (l : List Char) : Bool :=
  isBlankLine l || isH3Line l || isH2Line l || isH1Line l

/-!
## `CVGenerator.generate_cv` — rendering failure policy
(`backend/app/services/cv_generator.py`, lines 77-131)

After `markdown_content` is obtained, the requested format is written to a
temp file.  The format writer's fate is a parameter (`PrimaryOutcome`):
it raises, or completes leaving a file of some byte size.  A markdown
write always completes, leaving a file whose size is zero exactly when the
content is empty (modelled as the character count).
-/

inductive CvOutFmt
  | docx
  | pdf
  | md
deriving DecidableEq, Repr

inductive PrimaryOutcome
  | raises
  | completes (byteSize : Nat)
deriving DecidableEq, Repr

structure CvFile where
  fmt : CvOutFmt
  byteSize : Nat
deriving DecidableEq, Repr

/-- Size of the file written for markdown content (zero iff empty). -/
def mdByteSize (content : List Char) : Nat := content.length

/-- `generate_cv` from line 80 on: write the requested format; the check
at line 91 raises when the output file is missing or empty; any exception
is caught at line 97, and for a non-`md` target a markdown fallback file
is written and returned — without the missing-or-empty check — while for
the `md` target the `RuntimeError` at line 115 propagates (`.error ()`).
-/
def generateCvRender (content : List Char) (fmt : CvOutFmt)
    (primary : PrimaryOutcome) : Except Unit CvFile :=
  match fmt with
  | .md =>
    if mdByteSize content = 0 then .error () else .ok ⟨.md, mdByteSize content⟩
  | .docx =>
    match primary with
    | .raises => .ok ⟨.md, mdByteSize content⟩
    | .completes size =>
      if size = 0 then .ok ⟨.md, mdByteSize content⟩ else .ok ⟨.docx, size⟩
  | .pdf =>
    match primary with
    | .raises => .ok ⟨.md, mdByteSize content⟩
    | .completes size =>
      if size = 0 then .ok ⟨.md, mdByteSize content⟩ else .ok ⟨.pdf, size⟩

/-!
## Fallback Content Synthesizer — `CVGenerator._generate_fallback_cv`
(`backend/app/services/cv_generator.py`, lines 133-214)

The `cv_data` dict is modelled with `Option` fields (`none` = key absent
or `None`); Python truthiness of a string field is `optTruthy`.  The
function builds a list `lines` and returns `'\n'.join(lines)`.
-/

def optTruthy : Option (List Char) → Bool
  | none => false
  | some s => !s.isEmpty

structure PersonalInfo where
  name : Option (List Char) := none
  email : Option (List Char) := none
  phone : Option (List Char) := none
  linkedin : Option (List Char) := none
  github : Option (List Char) := none
  location : Option (List Char) := none
  summary : Option (List Char) := none
deriving DecidableEq, Repr

/-- A job's `description` value: a string or a list of strings. -/
inductive DescValue
  | one (s : List Char)
  | many (items : List (List Char))
deriving DecidableEq, Repr

structure JobEntry where
  title : Option (List Char) := none
  company : Option (List Char) := none
  start_date : Option (List Char) := none
  end_date : Option (List Char) := none
  current : Bool := false
  location : Option (List Char) := none
  description : Option DescValue := none
deriving DecidableEq, Repr

structure EduEntry where
  degree : Option (List Char) := none
  institution : Option (List Char) := none
  field_of_study : Option (List Char) := none
  start_date : Option (List Char) := none
  end_date : Option (List Char) := none
  gpa : Option (List Char) := none
deriving DecidableEq, Repr

/-- The `skills` value: a list of strings, or any other value rendered
via `str(skills)`. -/
inductive SkillsValue
  | list (items : List (List Char))
  | raw (s : List Char)
deriving DecidableEq, Repr

structure CvData where
  personal_info : PersonalInfo := {}
  work_experience : List JobEntry := []
  education : List EduEntry := []
  skills : SkillsValue := .list []
deriving DecidableEq, Repr

/-- Python `", ".join(items)`. -/
def joinCommaSpace : List (List Char) → List Char
  | [] => []
  | [x] => x
  | x :: rest => x ++ ',' :: ' ' :: joinCommaSpace rest

/-- Header block of the fallback CV (lines 152-163). -/
def headerLines (p : PersonalInfo) : List (List Char) :=
  ["# ".data ++ p.name.getD "Your Name".data] ++
  [p.email.getD [] ++ " | ".data ++ p.phone.getD []] ++
  (if optTruthy p.linkedin then ["LinkedIn: ".data ++ p.linkedin.getD []] else []) ++
  (if optTruthy p.github then ["GitHub: ".data ++ p.github.getD []] else []) ++
  (if optTruthy p.location then ["Location: ".data ++ p.location.getD []] else []) ++
  ["\n## Summary".data] ++
  [p.summary.getD
    "Experienced professional with a strong background in their field.".data]

/-- The dates string of one job (lines 170-174). -/
def jobDates (j : JobEntry) : List Char :=
  let d := j.start_date.getD "Start".data
  if optTruthy j.end_date then d ++ " to ".data ++ j.end_date.getD []
  else if j.current then d ++ " to Present".data
  else d

/-- The description bullets of one job (lines 178-184). -/
def jobDescLines (j : JobEntry) : List (List Char) :=
  match j.description with
  | none => []
  | some (.one s) => if s.isEmpty then [] else [[], "- ".data ++ s]
  | some (.many items) =>
    if items.isEmpty then [] else [] :: items.map (fun d => "- ".data ++ d)

/-- All lines of one job entry (lines 169-184). -/
def jobLines (j : JobEntry) : List (List Char) :=
  ["\n### ".data ++ j.title.getD "Position".data ++ " at ".data ++
      j.company.getD "Company".data] ++
  ["*".data ++ jobDates j ++ "*".data] ++
  (if optTruthy j.location then ["*".data ++ j.location.getD [] ++ "*".data] else []) ++
  jobDescLines j

/-- The Work Experience section (lines 166-184): omitted entirely when
`work_experience` is falsy (empty). -/
def workLines (work : List JobEntry) : List (List Char) :=
  if work.isEmpty then []
  else "\n## Work Experience".data :: (work.map jobLines).flatten

/-- The dates string of one education entry (lines 195-199). -/
def eduDates (e : EduEntry) : List Char :=
  let d := e.start_date.getD "Start".data
  let d2 := if optTruthy e.end_date then d ++ " to ".data ++ e.end_date.getD [] else d
  if e.gpa.isSome then d2 ++ " | GPA: ".data ++ e.gpa.getD [] else d2

/-- All lines of one education entry (lines 189-200). -/
def eduEntryLines (e : EduEntry) : List (List Char) :=
  ["\n### ".data ++ e.degree.getD "Degree".data ++
      (if optTruthy e.field_of_study then " in ".data ++ e.field_of_study.getD []
       else [])] ++
  [e.institution.getD "Institution".data] ++
  ["*".data ++ eduDates e ++ "*".data]

/-- The Education section (lines 187-200). -/
def educationLines (edu : List EduEntry) : List (List Char) :=
  if edu.isEmpty then []
  else "\n## Education".data :: (edu.map eduEntryLines).flatten

/-- The Skills section (lines 203-208). -/
def skillsLines : SkillsValue → List (List Char)
  | .list items =>
    if items.isEmpty then [] else ["\n## Skills".data, joinCommaSpace items]
  | .raw s =>
    if s.isEmpty then [] else ["\n## Skills".data, s]

/-- The `lines` list built by `_generate_fallback_cv`. -/
def generateFallbackCvLines (cv : CvData) : List (List Char) :=
  headerLines cv.personal_info ++ workLines cv.work_experience ++
  educationLines cv.education ++ skillsLines cv.skills

/-- `CVGenerator._generate_fallback_cv`: `'\n'.join(lines)`. -/
def generateFallbackCv (cv : CvData) : List Char :=
  joinNl (generateFallbackCvLines cv)

/-!
## Post-extraction normalization — `ResumeProcessor._clean_extracted_text`
(`backend/app/services/resume_processor.py`, lines 105-134)

The five regex substitutions are embedded one by one.  The header
substitution (`re.sub(r'\n\s*([A-Z][A-Z\s]{5,})\n', lambda ..., text)`) is
implemented with Python's leftmost-match backtracking semantics: `\s*` is
greedy, but only its maximal extent can be followed by `[A-Z]` (shorter
extents leave a whitespace character where `[A-Z]` must match), and the
greedy `[A-Z\s]{5,}` backtracks to the last `'\n'` of the class run at
index ≥ 5, since the class includes `'\n'` itself while the first
character past the run cannot be `'\n'`.
-/

/-- Helper for `collapseWs` (`re.sub(r'\s+', ' ', text)`): `inRun` records
whether the current whitespace run has already emitted its space. -/
def collapseWsAux : Bool → List Char → List Char
  | _, [] => []
  | inRun, c :: rest =>
    if isPySpace c then
      if inRun then collapseWsAux true rest else ' ' :: collapseWsAux true rest
    else c :: collapseWsAux false rest

/-- `re.sub(r'\s+', ' ', text)`. -/
def collapseWs (s : List Char) : List Char := collapseWsAux false s

/-- `re.sub(r'\x0c', '', text)`. -/
def removeFormFeed (s : List Char) : List Char :=
  s.filter fun c => c ≠ Char.ofNat 0x0c

/-- The bullet character `•` the source replaces. -/
def bulletChar : Char := Char.ofNat 0x2022

/-- The replacement string of `re.sub(r'•', 'â€¢', text)` — the
mojibake three characters present in the source file (U+00E2 U+20AC
U+00A2). -/
def bulletRepl : List Char := [Char.ofNat 0xe2, Char.ofNat 0x20ac, Char.ofNat 0xa2]

/-- One character's image under the bullet substitution. -/
def bulletPiece (c : Char) : List Char :=
  if c = bulletChar then bulletRepl else [c]

/-- `re.sub(r'•', 'â€¢', text)`. -/
def fixBullets (s : List Char) : List Char :=
  (s.map bulletPiece).flatten

/-- Python `str.title()` restricted to cased = alphabetic characters (the
matched group holds only `A-Z` and whitespace). -/
def pyTitleAux : Bool → List Char → List Char
  | _, [] => []
  | prevCased, c :: rest =>
    if c.isAlpha then
      (if prevCased then c.toLower else c.toUpper) :: pyTitleAux true rest
    else c :: pyTitleAux false rest

def pyTitle (s : List Char) : List Char := pyTitleAux false s

/-- The replacement `f"\n\n{g.title()}\n{'='*len(g.title())}\n"` for a
matched group `g`. -/
def headerRepl (g : List Char) : List Char :=
  '\n' :: '\n' :: pyTitle g ++ '\n' :: List.replicate (pyTitle g).length '=' ++ ['\n']

/-- A character of the class `[A-Z\s]`. -/
def isHeaderClass (c : Char) : Bool := c.isUpper || isPySpace c

/-- The greatest index `k ≥ 5` of `run` holding `'\n'` (the backtracking
target of `[A-Z\s]{5,}` followed by a literal `'\n'`). -/
def lastNlIdxGe5 (run : List Char) : Option Nat :=
  (List.range run.length).reverse.find? fun k =>
    decide (5 ≤ k) && (run.getD k ' ' == '\n')

/-- Attempt the header pattern right after a leading `'\n'`:
`\s*([A-Z][A-Z\s]{5,})\n`.  Returns the group and the input remaining
after the match. -/
def headerMatchAfterNl (rest : List Char) : Option (List Char × List Char) :=
  let r1 := rest.dropWhile isPySpace
  match r1 with
  | [] => none
  | x :: r2 =>
    if x.isUpper then
      let run := r2.takeWhile isHeaderClass
      let tl := r2.dropWhile isHeaderClass
      match lastNlIdxGe5 run with
      | some k => some (x :: run.take k, run.drop (k + 1) ++ tl)
      | none => none
    else none

/-- The left-to-right `re.sub` scan for the header pattern; `fuel` bounds
the recursion (`headerScan` supplies the input length, which suffices
since every step consumes at least one character). -/
def headerScanGo : Nat → List Char → List Char
  | 0, s => s
  | _ + 1, [] => []
  | fuel + 1, c :: rest =>
    if c = '\n' then
      match headerMatchAfterNl rest with
      | some (g, after) => headerRepl g ++ headerScanGo fuel after
      | none => c :: headerScanGo fuel rest
    else c :: headerScanGo fuel rest

/-- `re.sub(r'\n\s*([A-Z][A-Z\s]{5,})\n', ..., text)`. -/
def headerScan (s : List Char) : List Char := headerScanGo s.length s

/-- Helper for `squeezeNl`: `n` pending newlines not yet emitted. -/
def squeezeNlAux : Nat → List Char → List Char
  | n, [] => List.replicate (if 3 ≤ n then 2 else n) '\n'
  | n, c :: rest =>
    if c = '\n' then squeezeNlAux (n + 1) rest
    else List.replicate (if 3 ≤ n then 2 else n) '\n' ++ c :: squeezeNlAux 0 rest

/-- `re.sub(r'\n{3,}', '\n\n', text)`. -/
def squeezeNl (s : List Char) : List Char := squeezeNlAux 0 s

/-- `ResumeProcessor._clean_extracted_text`: early return for falsy text,
then the five substitutions with the two `str.strip()` calls. -/
def cleanExtractedText (text : List Char) : List Char :=
  if text.isEmpty then []
  else
    pyStrip (squeezeNl (headerScan (fixBullets (removeFormFeed
      (pyStrip (collapseWs text))))))

/-!
## Response Interpreter — `GroqClient.optimize_resume`
(`backend/app/services/groq_client.py`, lines 329-497), and the wrapper
`ResumeOptimizer.optimize_resume` (`backend/app/services/optimizer.py`,
lines 22-89)

Python's `json` values are modelled by `PyJson`; `loads` is a recursive
descent parser for the JSON grammar with two documented restrictions of
the model: numeric literals are integers (no fractions/exponents), and a
`\uXXXX` escape maps through `Char.ofNat`.  Python dict literals keep the
last value of a repeated key (`dedupObj`).  The dynamic text of error
messages (`str(e)` interpolations) is abstracted to the static stem of
each message.
-/

inductive PyJson
  | jnull
  | jbool (b : Bool)
  | jnum (n : Int)
  | jstr (s : List Char)
  | jarr (elems : List PyJson)
  | jobj (fields : List (List Char × PyJson))
deriving Repr

def lbraceChar : Char := '\x7b'

def rbraceChar : Char := '\x7d'

def backtickChar : Char := '\x60'

/-- JSON inter-token whitespace (what `json.loads` skips). -/
def jsonWs (c : Char) : Bool := c = ' ' || c = '\t' || c = '\n' || c = '\r'

def skipJsonWs (s : List Char) : List Char := s.dropWhile jsonWs

def hexVal (c : Char) : Option Nat :=
  if '0' ≤ c ∧ c ≤ '9' then some (c.toNat - '0'.toNat)
  else if 'a' ≤ c ∧ c ≤ 'f' then some (c.toNat - 'a'.toNat + 10)
  else if 'A' ≤ c ∧ c ≤ 'F' then some (c.toNat - 'A'.toNat + 10)
  else none

/-- JSON string body after the opening quote: returns the decoded
characters and the input after the closing quote.  Escapes and the
raw-control-character rejection follow `json.loads`. -/
def parseStrChars : List Char → Option (List Char × List Char)
  | [] => none
  | c :: rest =>
    if c = '"' then some ([], rest)
    else if c = '\\' then
      match rest with
      | [] => none
      | e :: rest2 =>
        if e = '"' then (parseStrChars rest2).map fun r => ('"' :: r.1, r.2)
        else if e = '\\' then (parseStrChars rest2).map fun r => ('\\' :: r.1, r.2)
        else if e = '/' then (parseStrChars rest2).map fun r => ('/' :: r.1, r.2)
        else if e = 'b' then
          (parseStrChars rest2).map fun r => (Char.ofNat 8 :: r.1, r.2)
        else if e = 'f' then
          (parseStrChars rest2).map fun r => (Char.ofNat 12 :: r.1, r.2)
        else if e = 'n' then (parseStrChars rest2).map fun r => ('\n' :: r.1, r.2)
        else if e = 'r' then (parseStrChars rest2).map fun r => ('\r' :: r.1, r.2)
        else if e = 't' then (parseStrChars rest2).map fun r => ('\t' :: r.1, r.2)
        else if e = 'u' then
          match rest2 with
          | h1 :: h2 :: h3 :: h4 :: rest3 =>
            match hexVal h1, hexVal h2, hexVal h3, hexVal h4 with
            | some a, some b, some c', some d =>
              (parseStrChars rest3).map fun r =>
                (Char.ofNat (((a * 16 + b) * 16 + c') * 16 + d) :: r.1, r.2)
            | _, _, _, _ => none
          | _ => none
        else none
    else if c.toNat < 32 then none
    else (parseStrChars rest).map fun r => (c :: r.1, r.2)

def digitsToNat (ds : List Char) : Nat :=
  ds.foldl (fun acc c => acc * 10 + (c.toNat - '0'.toNat)) 0

/-- Integer literal (the model's number grammar). -/
def parseNumber (s : List Char) : Option (Int × List Char) :=
  match s with
  | '-' :: rest =>
    let ds := rest.takeWhile Char.isDigit
    if ds.isEmpty then none
    else some (-(digitsToNat ds : Int), rest.dropWhile Char.isDigit)
  | _ =>
    let ds := s.takeWhile Char.isDigit
    if ds.isEmpty then none
    else some ((digitsToNat ds : Int), s.dropWhile Char.isDigit)

/-- Python-dict key overwrite: a repeated key keeps its first position and
the last value. -/
def objInsert (fields : List (List Char × PyJson)) (k : List Char) (v : PyJson) :
    List (List Char × PyJson) :=
  if fields.any fun f => f.1 = k then
    fields.map fun f => if f.1 = k then (k, v) else f
  else fields ++ [(k, v)]

def dedupObj (pairs : List (List Char × PyJson)) : List (List Char × PyJson) :=
  pairs.foldl (fun acc kv => objInsert acc kv.1 kv.2) []

mutual

/-- One JSON value (leading whitespace skipped), with `fuel` bounding the
recursion depth; `loads` supplies fuel exceeding any possible depth. -/
def parseValue : Nat → List Char → Option (PyJson × List Char)
  | 0, _ => none
  | fuel + 1, s =>
    match skipJsonWs s with
    | [] => none
    | c :: rest =>
      if c = lbraceChar then
        match skipJsonWs rest with
        | d :: rest2 =>
          if d = rbraceChar then some (.jobj [], rest2)
          else
            (parseObjFields fuel (d :: rest2)).map fun r => (.jobj (dedupObj r.1), r.2)
        | [] => none
      else if c = '[' then
        match skipJsonWs rest with
        | ']' :: rest2 => some (.jarr [], rest2)
        | other => (parseArrElems fuel other).map fun r => (.jarr r.1, r.2)
      else if c = '"' then
        (parseStrChars rest).map fun r => (.jstr r.1, r.2)
      else if c = 't' then
        if startsWithChars rest "rue".data then some (.jbool true, rest.drop 3)
        else none
      else if c = 'f' then
        if startsWithChars rest "alse".data then some (.jbool false, rest.drop 4)
        else none
      else if c = 'n' then
        if startsWithChars rest "ull".data then some (.jnull, rest.drop 3)
        else none
      else if c = '-' ∨ c.isDigit then
        (parseNumber (c :: rest)).map fun r => (.jnum r.1, r.2)
      else none

/-- Array elements after `[` (at least one), with separators. -/
def parseArrElems : Nat → List Char → Option (List PyJson × List Char)
  | 0, _ => none
  | fuel + 1, s =>
    match parseValue fuel s with
    | none => none
    | some (v, r) =>
      match skipJsonWs r with
      | ',' :: r2 => (parseArrElems fuel r2).map fun p => (v :: p.1, p.2)
      | ']' :: r2 => some ([v], r2)
      | _ => none

/-- Object fields after `{` (at least one), with separators. -/
def parseObjFields : Nat → List Char → Option (List (List Char × PyJson) × List Char)
  | 0, _ => none
  | fuel + 1, s =>
    match s with
    | c :: rest =>
      if c = '"' then
        match parseStrChars rest with
        | none => none
        | some (k, r1) =>
          match skipJsonWs r1 with
          | ':' :: r2 =>
            match parseValue fuel r2 with
            | none => none
            | some (v, r3) =>
              match skipJsonWs r3 with
              | ',' :: r4 =>
                (parseObjFields fuel (skipJsonWs r4)).map fun p =>
                  ((k, v) :: p.1, p.2)
              | d :: r4 =>
                if d = rbraceChar then some ([(k, v)], r4) else none
              | [] => none
          | _ => none
      else none
    | [] => none

end

/-- `json.loads`: one value, then only whitespace may remain. -/
def loads (s : List Char) : Option PyJson :=
  match parseValue (s.length + 1) s with
  | some (v, rest) => if (skipJsonWs rest).isEmpty then some v else none
  | none => none

/-! ### The markdown-extraction regexes of `optimize_resume` (lines 440-450) -/

def fenceTicks : List Char := [backtickChar, backtickChar, backtickChar]

/-- Content before the first occurrence of `"\n```"`. -/
def findNlFence : List Char → Option (List Char)
  | [] => none
  | c :: rest =>
    if c = '\n' ∧ startsWithChars rest fenceTicks then some []
    else (findNlFence rest).map fun l => c :: l

/-- Does the fence pattern `` ```(?:json)?\n(.*?)\n``` `` match at this
position?  The optional `json` is tried greedily, as the regex engine
does. -/
def fenceAt (s : List Char) : Option (List Char) :=
  if startsWithChars s (fenceTicks ++ 'j' :: 's' :: 'o' :: 'n' :: '\n' :: []) then
    findNlFence (s.drop 8)
  else if startsWithChars s (fenceTicks ++ ['\n']) then
    findNlFence (s.drop 4)
  else none

/-- `re.search(r'```(?:json)?\n(.*?)\n```', response, re.DOTALL)`:
leftmost position where the whole pattern matches. -/
def findFence : List Char → Option (List Char)
  | [] => none
  | c :: rest =>
    match fenceAt (c :: rest) with
    | some inner => some inner
    | none => findFence rest

/-- `re.search(r'({.*})', response, re.DOTALL)`: from the leftmost `{`
that has a later `}`, to the last `}`. -/
def braceSpan : List Char → Option (List Char)
  | [] => none
  | c :: rest =>
    if c = lbraceChar then
      match ((c :: rest).reverse.dropWhile fun d => d ≠ rbraceChar) with
      | [] => braceSpan rest
      | d :: dropped => some (d :: dropped).reverse
    else braceSpan rest

/-- The response-parsing stage of `optimize_resume` (lines 431-450):
strip, direct `json.loads`, then the fenced-block regex, then the brace
regex; the first matching regex's group is stripped and parsed, with no
further fallback if that parse fails. -/
def parseGroqResponse (response : List Char) : Option PyJson :=
  match loads (pyStrip response) with
  | some j => some j
  | none =>
    match findFence (pyStrip response) with
    | some inner => loads (pyStrip inner)
    | none =>
      match braceSpan (pyStrip response) with
      | some inner => loads (pyStrip inner)
      | none => none

/-! ### Validation and defaulting of the parsed result (lines 452-474) -/

def objHasKey (fields : List (List Char × PyJson)) (k : List Char) : Bool :=
  fields.any fun f => f.1 = k

def objGet (fields : List (List Char × PyJson)) (k : List Char) : Option PyJson :=
  (fields.find? fun f => f.1 = k).map Prod.snd

/-- All of `["optimized_text", "score", "suggestions"]` present (line
453-456). -/
def requiredPresent (fields : List (List Char × PyJson)) : Bool :=
  objHasKey fields "optimized_text".data && objHasKey fields "score".data &&
    objHasKey fields "suggestions".data

/-- Python `float(str)` restricted to integer literals: strip, optional
sign, digits. -/
def pyFloatStr (s : List Char) : Option Int :=
  match pyStrip s with
  | '-' :: ds =>
    if ds ≠ [] ∧ ds.all Char.isDigit then some (-(digitsToNat ds : Int)) else none
  | ds => if ds ≠ [] ∧ ds.all Char.isDigit then some (digitsToNat ds : Int) else none

/-- `float(result["score"])`: numbers and booleans convert, numeric
strings parse, everything else raises (→ `none`, caught at line 461 and
defaulted to `0.0`). -/
def pyFloat : PyJson → Option Int
  | .jnum n => some n
  | .jbool b => some (if b then 1 else 0)
  | .jstr s => pyFloatStr s
  | _ => none

/-- Lines 465-466: a non-list `suggestions` is rebuilt from
`result.get("suggestions", "").split("\n")`, keeping lines with
non-blank strip; a value that is neither a list nor a string raises
(`none`, caught by the handler at line 476). -/
def normalizeSuggestions : PyJson → Option (List PyJson)
  | .jarr xs => some xs
  | .jstr s =>
    some (((splitOnNl s).filter fun l => !(pyStrip l).isEmpty).map PyJson.jstr)
  | _ => none

inductive OptStatus
  | success
  | error
deriving DecidableEq, Repr

/-- The result dict of `optimize_resume` (the fields common to all
paths; the dynamic `error` message strings are abstracted away, and
dicts lacking the keyword fields are modelled with `.jarr []`). -/
structure OptResult where
  status : OptStatus
  optimized_text : PyJson
  score : Int
  suggestions : List PyJson
  keywords_matched : PyJson
  missing_keywords : PyJson
deriving Repr

/-- An error dict: `status=error`, the original resume text unchanged,
score `0.0`, one message suggestion. -/
def errResult (resumeText : List Char) (msg : List Char) : OptResult :=
  ⟨.error, .jstr resumeText, 0, [.jstr msg], .jarr [], .jarr []⟩

def tooShortMsg : List Char := "Resume text is too short or empty".data

def notEnabledMsg : List Char :=
  "Groq client is not enabled or not properly initialized".data

/-- Static stem of the dynamic message at line 484. -/
def parseFailMsg : List Char := "Failed to parse optimization response".data

/-- Static stem of the dynamic message at line 495. -/
def requestFailMsg : List Char := "Error during optimization".data

/-- Lines 452-474 applied to a successfully parsed JSON value.  A
non-dict value, a missing required field, or a `suggestions` value that
is neither list nor string ends in the handler at line 476, which
returns the error dict with the original text (line 481). -/
def validateResult (parsed : PyJson) (resumeText : List Char) : OptResult :=
  match parsed with
  | .jobj fields =>
    if requiredPresent fields then
      match normalizeSuggestions ((objGet fields "suggestions".data).getD .jnull) with
      | some sug =>
        ⟨.success,
         (objGet fields "optimized_text".data).getD .jnull,
         (match pyFloat ((objGet fields "score".data).getD .jnull) with
          | some n => max 0 (min 100 n)
          | none => 0),
         sug,
         (objGet fields "keywords_matched".data).getD (.jarr []),
         (objGet fields "missing_keywords".data).getD (.jarr [])⟩
      | none => errResult resumeText parseFailMsg
    else errResult resumeText parseFailMsg
  | _ => errResult resumeText parseFailMsg

/-- The fate of the `_make_request` call inside `optimize_resume`:
either some exception/timeout, or a raw text response. -/
inductive GroqOutcome
  | requestFailed
  | response (raw : List Char)

/-- `GroqClient.optimize_resume`: the input-length guard (line 347), the
enabled guard (line 358), the request, the parse stage and the
validation stage. -/
def optimizeResume (resumeText : List Char) (enabled : Bool)
    (outcome : GroqOutcome) : OptResult :=
  if resumeText.isEmpty ∨ (pyStrip resumeText).length < 50 then
    errResult resumeText tooShortMsg
  else if ¬enabled then errResult resumeText notEnabledMsg
  else
    match outcome with
    | .requestFailed => errResult resumeText requestFailMsg
    | .response raw =>
      match parseGroqResponse raw with
      | some parsed => validateResult parsed resumeText
      | none => errResult resumeText parseFailMsg

def optimizerTooShortMsg : List Char := "Resume text is too short or empty".data

def optimizerNotConfiguredMsg : List Char :=
  "Resume optimization service is not properly configured".data

/-- `ResumeOptimizer.optimize_resume` (optimizer.py lines 22-89): its own
guards, then the inner client call; the inner result always carries the
three required keys, so the wrapper re-wraps it as a success with the
score re-clamped and the suggestions truncated to five — even when the
inner result was an error dict. -/
def optimizerOptimize (resumeText : List Char) (clientOk : Bool)
    (inner : OptResult) : OptResult :=
  if resumeText.isEmpty ∨ (pyStrip resumeText).length < 50 then
    errResult resumeText optimizerTooShortMsg
  else if ¬clientOk then errResult resumeText optimizerNotConfiguredMsg
  else
    ⟨.success, inner.optimized_text, min (max inner.score 0) 100,
      inner.suggestions.take 5, .jarr [], .jarr []⟩

/-- Normal-form invariant 1 of cleaned text: every whitespace character is
a plain `' '`. -/
def onlySpaceWs (s : List Char) : Prop :=
  ∀ c ∈ s, isPySpace c = true → c = ' '

/-- Normal-form invariant 2 of cleaned text: no two adjacent `' '`. -/
def noDoubleSpace (s : List Char) : Prop :=
  List.Chain' (fun a b => ¬(a = ' ' ∧ b = ' ')) s

/-- Invariant of the docx scan through bullet-free lines: the open
paragraph, if any, is a plain (non-bullet) one. -/
def DocxInv (st : DocxState) : Prop :=
  st.cur = none ∨ ∃ runs, st.cur = some (false, runs)

/-- The opening fence the claim wraps with: three backticks, optionally
`json`, then a newline. -/
def fenceHeader (useJson : Bool) : List Char :=
  fenceTicks ++ (if useJson then ['j', 's', 'o', 'n'] else []) ++ ['\n']

/-- A raw response consisting of `s` wrapped in a fenced code block. -/
def wrapFence (useJson : Bool) (s : List Char) : List Char :=
  fenceHeader useJson ++ s ++ '\n' :: fenceTicks

/-- A concrete JSON object serialization, `{"a": 1}`. -/
def jsonSample : List Char :=
  lbraceChar :: '"' :: 'a' :: '"' :: ':' :: ' ' :: '1' :: rbraceChar :: []

/-- A response whose JSON parses but lacks the required `score` field. -/
def missingScoreRaw : List Char :=
  "\x7b\"optimized_text\": \"x\", \"suggestions\": []\x7d".data

def missingScoreFields : List (List Char × PyJson) :=
  [("optimized_text".data, PyJson.jstr ['x']), ("suggestions".data, PyJson.jarr [])]

/-! ## Theorems -/

/-- The attempt counter of the loop never exceeds the starting attempt
number plus the remaining loop iterations. -/
theorem runAttempts_attempts_le (oracle : Nat → AttemptOutcome) :
    ∀ fuel a, (runAttempts oracle a fuel).attempts ≤ a + fuel
  | 0, a => by simp [runAttempts]
  | fuel + 1, a => by
    have ih := runAttempts_attempts_le oracle fuel (a + 1)
    cases ho : oracle a <;> simp only [runAttempts, ho] <;>
      first
        | omega
        | (split
           · simp only []; omega
           · simp only []; omega)

/-- C2: with a transport that permanently fails (every attempt times out or
errors), `_make_request` makes exactly `max_retries + 1 = 3` attempts,
sleeps `retry_delay * attempt_number` (1s then 2s) between consecutive
attempts, and ends by raising the exhausted-retries error (the final
re-raise after "all retries"); moreover no call ever makes more than
`max_retries + 1` attempts. -/
theorem C2_bounded_retry_with_backoff (oracle : Nat → AttemptOutcome)
    (h : ∀ i, i ≤ maxRetries → oracle i = .timeout ∨ oracle i = .transportError) :
    ((makeRequest true true oracle).attempts = maxRetries + 1 ∧
     (makeRequest true true oracle).delays = [retryDelay * 1, retryDelay * 2] ∧
     ((makeRequest true true oracle).result = .exhaustedTimeout ∨
      (makeRequest true true oracle).result = .exhaustedError)) ∧
    ∀ g : Nat → AttemptOutcome, (makeRequest true true g).attempts ≤ maxRetries + 1 := by
  constructor
  · rcases h 0 (by simp [maxRetries]) with h0 | h0 <;>
      rcases h 1 (by simp [maxRetries]) with h1 | h1 <;>
      rcases h 2 (by simp [maxRetries]) with h2 | h2 <;>
      simp [makeRequest, runAttempts, h0, h1, h2, maxRetries, retryDelay]
  · intro g
    have := runAttempts_attempts_le g (maxRetries + 1) 0
    simpa [makeRequest] using this

/-- Witness for C2 at the concrete always-timing-out transport. -/
theorem C2_bounded_retry_with_backoff_witness :
    (makeRequest true true (fun _ => AttemptOutcome.timeout)).attempts = maxRetries + 1 ∧
    (makeRequest true true (fun _ => AttemptOutcome.timeout)).delays =
      [retryDelay * 1, retryDelay * 2] := by
  have h := C2_bounded_retry_with_backoff (fun _ => AttemptOutcome.timeout)
    (fun i _ => Or.inl rfl)
  exact ⟨h.1.1, h.1.2.1⟩

/-- C3: if the caller's cancellation reaches attempt `k` (after transient
failures on the earlier attempts), `_make_request` stops after that
attempt — `k + 1` attempts in total, no further attempt — and the call
ends as a cancellation, not as a normal (retryable or terminal) failure
result. -/
theorem C3_cancellation_propagates (oracle : Nat → AttemptOutcome) (k : Nat)
    (hk : k ≤ maxRetries) (hc : oracle k = .cancelled)
    (hprev : ∀ i, i < k →
      oracle i = .timeout ∨ oracle i = .transportError ∨ oracle i = .invalidResponse) :
    (makeRequest true true oracle).result = .cancelled ∧
    (makeRequest true true oracle).attempts = k + 1 ∧
    (makeRequest true true oracle).result ≠ .exhaustedTimeout ∧
    (makeRequest true true oracle).result ≠ .exhaustedError ∧
    (makeRequest true true oracle).result ≠ .loopFellThrough := by
  have hk' : k = 0 ∨ k = 1 ∨ k = 2 := by
    simp only [maxRetries] at hk; omega
  rcases hk' with rfl | rfl | rfl
  · simp [makeRequest, runAttempts, hc, maxRetries]
  · rcases hprev 0 (by omega) with h0 | h0 | h0 <;>
      simp [makeRequest, runAttempts, h0, hc, maxRetries]
  · rcases hprev 0 (by omega) with h0 | h0 | h0 <;>
      rcases hprev 1 (by omega) with h1 | h1 | h1 <;>
      simp [makeRequest, runAttempts, h0, h1, hc, maxRetries]

/-- Witness for C3: cancellation on the very first attempt. -/
theorem C3_cancellation_propagates_witness :
    (makeRequest true true (fun _ => AttemptOutcome.cancelled)).result =
      ReqResult.cancelled ∧
    (makeRequest true true (fun _ => AttemptOutcome.cancelled)).attempts = 1 := by
  have h := C3_cancellation_propagates (fun _ => AttemptOutcome.cancelled) 0
    (by simp [maxRetries]) rfl (fun i hi => absurd hi (by omega))
  exact ⟨h.1, h.2.1⟩

/-- C9 fails as stated: `resume_parser.extract_text_from_pdf` (one of the
two extractors the claim covers) aborts the whole document when a page
raises — it does not skip the page and return the remaining text — and a
document whose only page yields the empty string produces empty text, not
an explicit error.  `ResumeProcessor._extract_text_from_pdf`, on the same
inputs, behaves as the claim says. -/
theorem C9_counterexample_parser_aborts :
    extractTextFromPdfParser [PageOutcome.raises, PageOutcome.text "hi".data] = none ∧
    extractTextFromPdfParser [PageOutcome.text []] = some [] ∧
    extractTextFromPdfProcessor [PageOutcome.raises, PageOutcome.text "hi".data] =
      some "hi".data := by
  constructor
  · rfl
  · constructor <;> rfl

/-- C9 amended: the page-by-page policy the claim describes holds of
`ResumeProcessor._extract_text_from_pdf` — a raising page is skipped
without affecting the rest of the document, and the extraction fails with
an explicit error exactly when no page yields (non-empty) text — while
`resume_parser.extract_text_from_pdf` instead aborts the whole document
whenever any page raises. -/
theorem C9_pdf_page_policy :
    (∀ a b : List PageOutcome,
      extractTextFromPdfProcessor (a ++ PageOutcome.raises :: b) =
        extractTextFromPdfProcessor (a ++ b)) ∧
    (∀ pages : List PageOutcome,
      (extractTextFromPdfProcessor pages = none ↔
        ∀ p ∈ pages, p = PageOutcome.raises ∨ p = PageOutcome.text [])) ∧
    (∀ pages : List PageOutcome, PageOutcome.raises ∈ pages →
      extractTextFromPdfParser pages = none) := by
  refine ⟨?_, ?_, ?_⟩
  · intro a b
    simp [extractTextFromPdfProcessor, List.filterMap_append]
  · intro pages
    simp only [extractTextFromPdfProcessor]
    constructor
    · intro h p hp
      by_cases hnil : (pages.filterMap fun p =>
          match p with
          | .raises => none
          | .text s => if s = [] then none else some s) = []
      · rw [List.filterMap_eq_nil_iff] at hnil
        have := hnil p hp
        cases p with
        | raises => exact Or.inl rfl
        | text s =>
          right
          by_cases hs : s = []
          · rw [hs]
          · simp [hs] at this
      · simp [hnil] at h
    · intro h
      have hnil : (pages.filterMap fun p =>
          match p with
          | .raises => none
          | .text s => if s = [] then none else some s) = [] := by
        rw [List.filterMap_eq_nil_iff]
        intro p hp
        rcases h p hp with rfl | rfl
        · rfl
        · rfl
      simp [hnil]
  · intro pages hmem
    induction pages with
    | nil => cases hmem
    | cons p rest ih =>
      cases p with
      | raises => rfl
      | text s =>
        have : PageOutcome.raises ∈ rest := by
          rcases List.mem_cons.mp hmem with h | h
          · cases h
          · exact h
        have hr := ih this
        simp only [extractTextFromPdfParser, parserPagesConcat] at hr ⊢
        cases hc : parserPagesConcat rest with
        | none => rfl
        | some t => rw [hc] at hr; simp at hr

/-! ### Line-classification helper lemmas -/

theorem startsWithChars_iff (p : List Char) :
    ∀ s, startsWithChars s p = true ↔ ∃ t, s = p ++ t := by
  induction p with
  | nil => intro s; simp [startsWithChars]
  | cons c p ih =>
    intro s
    cases s with
    | nil => simp [startsWithChars]
    | cons a s' =>
      simp only [startsWithChars, Bool.and_eq_true, decide_eq_true_eq, ih,
        List.cons_append, List.cons.injEq]
      constructor
      · rintro ⟨rfl, t, rfl⟩; exact ⟨t, rfl, rfl⟩
      · rintro ⟨t, rfl, rfl⟩; exact ⟨rfl, t, rfl⟩

theorem isH3Line_shape {l : List Char} (h : isH3Line l = true) :
    ∃ t, pyStrip l = '#' :: '#' :: '#' :: ' ' :: t := by
  rcases (startsWithChars_iff _ _).mp h with ⟨t, ht⟩
  exact ⟨t, ht⟩

theorem isH2Line_shape {l : List Char} (h : isH2Line l = true) :
    ∃ t, pyStrip l = '#' :: '#' :: ' ' :: t := by
  rcases (startsWithChars_iff _ _).mp h with ⟨t, ht⟩
  exact ⟨t, ht⟩

theorem isH1Line_shape {l : List Char} (h : isH1Line l = true) :
    ∃ t, pyStrip l = '#' :: ' ' :: t := by
  rcases (startsWithChars_iff _ _).mp h with ⟨t, ht⟩
  exact ⟨t, ht⟩

theorem isBulletLine_shape {l : List Char} (h : isBulletLine l = true) :
    ∃ t, pyStrip l = '-' :: ' ' :: t := by
  rcases (startsWithChars_iff _ _).mp h with ⟨t, ht⟩
  exact ⟨t, ht⟩

/-! ### Unfolding `docxLine` by line class -/

theorem docxLine_blank {l : List Char} (st : DocxState) (h : isBlankLine l = true) :
    docxLine st l = ⟨flushDocx st, none⟩ := by
  simp only [isBlankLine, List.isEmpty_iff] at h
  simp [docxLine, h]

theorem docxLine_h3 {l : List Char} (st : DocxState) (h : isH3Line l = true) :
    docxLine st l = ⟨.heading 3 ((pyStrip l).drop 4) :: flushDocx st, none⟩ := by
  rcases isH3Line_shape h with ⟨t, ht⟩
  simp [docxLine, ht, startsWithChars]

theorem docxLine_h2 {l : List Char} (st : DocxState) (h : isH2Line l = true) :
    docxLine st l = ⟨.heading 2 ((pyStrip l).drop 3) :: flushDocx st, none⟩ := by
  rcases isH2Line_shape h with ⟨t, ht⟩
  simp [docxLine, ht, startsWithChars]

theorem docxLine_h1 {l : List Char} (st : DocxState) (h : isH1Line l = true) :
    docxLine st l = ⟨.heading 1 ((pyStrip l).drop 2) :: flushDocx st, none⟩ := by
  rcases isH1Line_shape h with ⟨t, ht⟩
  simp [docxLine, ht, startsWithChars]

theorem docxLine_bullet {l : List Char} (st : DocxState) (h : isBulletLine l = true) :
    docxLine st l =
      match st.cur with
      | some (b, runs) => ⟨st.rev, some (b, runs ++ [(pyStrip l).drop 2])⟩
      | none => ⟨st.rev, some (true, [(pyStrip l).drop 2])⟩ := by
  rcases isBulletLine_shape h with ⟨t, ht⟩
  simp [docxLine, ht, startsWithChars]

theorem docxLine_other {l : List Char} (st : DocxState)
    (hb : isBlankLine l = false) (h3 : isH3Line l = false) (h2 : isH2Line l = false)
    (h1 : isH1Line l = false) (hbl : isBulletLine l = false) :
    docxLine st l =
      match st.cur with
      | some (b, runs) => ⟨st.rev, some (b, runs ++ [' ' :: pyStrip l])⟩
      | none => ⟨st.rev, some (false, [pyStrip l])⟩ := by
  simp only [isBlankLine, isH3Line, isH2Line, isH1Line, isBulletLine] at hb h3 h2 h1 hbl
  simp [docxLine, hb, h3, h2, h1, hbl]

/-! ### Mutual exclusion of line classes -/

theorem not_h1_of_blank {l : List Char} (h : isBlankLine l = true) :
    isH1Line l = false := by
  simp only [isBlankLine, List.isEmpty_iff] at h
  simp [isH1Line, h, startsWithChars]

theorem not_h2_of_blank {l : List Char} (h : isBlankLine l = true) :
    isH2Line l = false := by
  simp only [isBlankLine, List.isEmpty_iff] at h
  simp [isH2Line, h, startsWithChars]

theorem not_bullet_of_blank {l : List Char} (h : isBlankLine l = true) :
    isBulletLine l = false := by
  simp only [isBlankLine, List.isEmpty_iff] at h
  simp [isBulletLine, h, startsWithChars]

theorem not_h1_of_h3 {l : List Char} (h : isH3Line l = true) : isH1Line l = false := by
  rcases isH3Line_shape h with ⟨t, ht⟩
  simp [isH1Line, ht, startsWithChars]

theorem not_h2_of_h3 {l : List Char} (h : isH3Line l = true) : isH2Line l = false := by
  rcases isH3Line_shape h with ⟨t, ht⟩
  simp [isH2Line, ht, startsWithChars]

theorem not_bullet_of_h3 {l : List Char} (h : isH3Line l = true) :
    isBulletLine l = false := by
  rcases isH3Line_shape h with ⟨t, ht⟩
  simp [isBulletLine, ht, startsWithChars]

theorem not_h1_of_h2 {l : List Char} (h : isH2Line l = true) : isH1Line l = false := by
  rcases isH2Line_shape h with ⟨t, ht⟩
  simp [isH1Line, ht, startsWithChars]

theorem not_bullet_of_h2 {l : List Char} (h : isH2Line l = true) :
    isBulletLine l = false := by
  rcases isH2Line_shape h with ⟨t, ht⟩
  simp [isBulletLine, ht, startsWithChars]

theorem not_h2_of_h1 {l : List Char} (h : isH1Line l = true) : isH2Line l = false := by
  rcases isH1Line_shape h with ⟨t, ht⟩
  simp [isH2Line, ht, startsWithChars]

theorem not_bullet_of_h1 {l : List Char} (h : isH1Line l = true) :
    isBulletLine l = false := by
  rcases isH1Line_shape h with ⟨t, ht⟩
  simp [isBulletLine, ht, startsWithChars]

theorem not_blank_of_bullet {l : List Char} (h : isBulletLine l = true) :
    isBlankLine l = false := by
  rcases isBulletLine_shape h with ⟨t, ht⟩
  simp [isBlankLine, ht]

theorem not_h1_of_bullet {l : List Char} (h : isBulletLine l = true) :
    isH1Line l = false := by
  rcases isBulletLine_shape h with ⟨t, ht⟩
  simp [isH1Line, ht, startsWithChars]

theorem not_h2_of_bullet {l : List Char} (h : isBulletLine l = true) :
    isH2Line l = false := by
  rcases isBulletLine_shape h with ⟨t, ht⟩
  simp [isH2Line, ht, startsWithChars]

/-! ### Counting over the docx fold -/

theorem docxHeadingCount_flush (lvl : Nat) (st : DocxState) :
    docxHeadingCount lvl (flushDocx st) = docxHeadingCount lvl st.rev := by
  rcases hc : st.cur with _ | ⟨b, runs⟩ <;>
    simp [flushDocx, hc, docxHeadingCount, List.countP_cons]

theorem flushDocx_none (elems : List DocxElem) : flushDocx ⟨elems, none⟩ = elems := rfl

theorem flushDocx_some (elems : List DocxElem) (b : Bool) (runs : List (List Char)) :
    flushDocx ⟨elems, some (b, runs)⟩ = .para b runs :: elems := rfl

theorem docxHeadingCount_para (lvl : Nat) (b : Bool) (runs : List (List Char))
    (X : List DocxElem) :
    docxHeadingCount lvl (.para b runs :: X) = docxHeadingCount lvl X := by
  simp [docxHeadingCount, List.countP_cons]

theorem docxHeadingCount_heading (lvl k : Nat) (t : List Char) (X : List DocxElem) :
    docxHeadingCount lvl (.heading k t :: X) =
      docxHeadingCount lvl X + (if k == lvl then 1 else 0) := by
  simp [docxHeadingCount, List.countP_cons]

/-- Generic heading-count invariant of the docx scan: processing lines adds
one level-`lvl` heading element per line satisfying `p`, for any line
predicate `p` that matches exactly the lines the scan turns into
level-`lvl` headings. -/
theorem docx_h_count_fold (lvl : Nat) (p : List Char → Bool)
    (h3lvl : (3 == lvl) = false)
    (hblank : ∀ l, isBlankLine l = true → p l = false)
    (h3p : ∀ l, isH3Line l = true → p l = false)
    (h2p : ∀ l, isH2Line l = true → p l = (2 == lvl))
    (h1p : ∀ l, isH1Line l = true → p l = (1 == lvl))
    (hbul : ∀ l, isBulletLine l = true → p l = false)
    (hother : ∀ l, isBlankLine l = false → isH3Line l = false → isH2Line l = false →
      isH1Line l = false → isBulletLine l = false → p l = false) :
    ∀ (lines : List (List Char)) (st : DocxState),
      docxHeadingCount lvl (flushDocx (lines.foldl docxLine st)) =
        docxHeadingCount lvl (flushDocx st) + lines.countP p := by
  intro lines
  induction lines with
  | nil => intro st; simp
  | cons l ls ih =>
    intro st
    rw [List.foldl_cons, List.countP_cons]
    by_cases hb : isBlankLine l
    · rw [docxLine_blank st hb, ih ⟨flushDocx st, none⟩, flushDocx_none,
        hblank l hb]
      simp
    · by_cases h3 : isH3Line l
      · rw [docxLine_h3 st h3, ih _, flushDocx_none, docxHeadingCount_heading,
          h3p l h3, h3lvl]
        simp
      · by_cases h2 : isH2Line l
        · rw [docxLine_h2 st h2, ih _, flushDocx_none, docxHeadingCount_heading,
            h2p l h2]
          cases hl : (2 == lvl) <;> (simp; try omega)
        · by_cases h1 : isH1Line l
          · rw [docxLine_h1 st h1, ih _, flushDocx_none, docxHeadingCount_heading,
              h1p l h1]
            cases hl : (1 == lvl) <;> (simp; try omega)
          · by_cases hbl : isBulletLine l
            · rcases hc : st.cur with _ | ⟨b, runs⟩
              · have e : docxLine st l = ⟨st.rev, some (true, [(pyStrip l).drop 2])⟩ := by
                  rw [docxLine_bullet st hbl, hc]
                rw [e, ih _, flushDocx_some, docxHeadingCount_para, hbul l hbl]
                simp [flushDocx, hc]
              · have e : docxLine st l = ⟨st.rev, some (b, runs ++ [(pyStrip l).drop 2])⟩ := by
                  rw [docxLine_bullet st hbl, hc]
                rw [e, ih _, flushDocx_some, docxHeadingCount_para, hbul l hbl]
                simp [flushDocx, hc, docxHeadingCount_para]
            · have hb' : isBlankLine l = false := by simpa using hb
              have h3' : isH3Line l = false := by simpa using h3
              have h2' : isH2Line l = false := by simpa using h2
              have h1' : isH1Line l = false := by simpa using h1
              have hbl' : isBulletLine l = false := by simpa using hbl
              rcases hc : st.cur with _ | ⟨b, runs⟩
              · have e : docxLine st l = ⟨st.rev, some (false, [pyStrip l])⟩ := by
                  rw [docxLine_other st hb' h3' h2' h1' hbl', hc]
                rw [e, ih _, flushDocx_some, docxHeadingCount_para,
                  hother l hb' h3' h2' h1' hbl']
                simp [flushDocx, hc]
              · have e : docxLine st l = ⟨st.rev, some (b, runs ++ [' ' :: pyStrip l])⟩ := by
                  rw [docxLine_other st hb' h3' h2' h1' hbl', hc]
                rw [e, ih _, flushDocx_some, docxHeadingCount_para,
                  hother l hb' h3' h2' h1' hbl']
                simp [flushDocx, hc, docxHeadingCount_para]

theorem docxHeadingCount_reverse (lvl : Nat) (elems : List DocxElem) :
    docxHeadingCount lvl elems.reverse = docxHeadingCount lvl elems := by
  simp [docxHeadingCount, List.countP_eq_length_filter, List.filter_reverse]

theorem docx_h1_count (lines : List (List Char)) :
    docxHeadingCount 1 (docxFromLines lines) = lines.countP isH1Line := by
  have h := docx_h_count_fold 1 isH1Line rfl
    (fun _ h => not_h1_of_blank h) (fun _ h => not_h1_of_h3 h)
    (fun _ h => not_h1_of_h2 h) (fun _ h => by rw [h]; rfl)
    (fun _ h => not_h1_of_bullet h) (fun _ _ _ _ h1 _ => h1)
    lines ⟨[], none⟩
  rw [docxFromLines, docxHeadingCount_reverse, h, flushDocx_none]
  simp [docxHeadingCount]

theorem docx_h2_count (lines : List (List Char)) :
    docxHeadingCount 2 (docxFromLines lines) = lines.countP isH2Line := by
  have h := docx_h_count_fold 2 isH2Line rfl
    (fun _ h => not_h2_of_blank h) (fun _ h => not_h2_of_h3 h)
    (fun _ h => by rw [h]; rfl) (fun _ h => not_h2_of_h1 h)
    (fun _ h => not_h2_of_bullet h) (fun _ _ _ h2 _ _ => h2)
    lines ⟨[], none⟩
  rw [docxFromLines, docxHeadingCount_reverse, h, flushDocx_none]
  simp [docxHeadingCount]

/-! ### Bullet-list structure of the docx scan -/

theorem docxBulletLists_para_true (runs : List (List Char)) (X : List DocxElem) :
    docxBulletLists (.para true runs :: X) = runs.length :: docxBulletLists X := by
  simp [docxBulletLists, List.filterMap_cons]

theorem docxBulletLists_para_false (runs : List (List Char)) (X : List DocxElem) :
    docxBulletLists (.para false runs :: X) = docxBulletLists X := by
  simp [docxBulletLists, List.filterMap_cons]

theorem docxBulletLists_heading (k : Nat) (t : List Char) (X : List DocxElem) :
    docxBulletLists (.heading k t :: X) = docxBulletLists X := by
  simp [docxBulletLists, List.filterMap_cons]

theorem docxBulletLists_reverse (elems : List DocxElem) :
    docxBulletLists elems.reverse = (docxBulletLists elems).reverse := by
  simp [docxBulletLists, List.filterMap_reverse]

theorem docxBulletLists_flushInv {st : DocxState} (h : DocxInv st) :
    docxBulletLists (flushDocx st) = docxBulletLists st.rev := by
  rcases h with hc | ⟨runs, hc⟩
  · simp [flushDocx, hc]
  · simp [flushDocx, hc, docxBulletLists_para_false]

/-- Processing bullet-free lines neither creates nor modifies bullet-list
paragraphs, and keeps the invariant. -/
theorem docx_noBullet_fold (lines : List (List Char))
    (hnb : ∀ l ∈ lines, isBulletLine l = false) :
    ∀ st : DocxState, DocxInv st →
      DocxInv (lines.foldl docxLine st) ∧
      docxBulletLists (lines.foldl docxLine st).rev = docxBulletLists st.rev := by
  induction lines with
  | nil => intro st hst; exact ⟨hst, rfl⟩
  | cons l ls ih =>
    intro st hst
    have hl : isBulletLine l = false := hnb l (List.mem_cons_self l ls)
    have hnb' : ∀ l' ∈ ls, isBulletLine l' = false :=
      fun l' hl' => hnb l' (List.mem_cons_of_mem l hl')
    rw [List.foldl_cons]
    by_cases hb : isBlankLine l
    · have e := docxLine_blank st hb
      have hst' : DocxInv (docxLine st l) := by rw [e]; exact Or.inl rfl
      rcases ih hnb' (docxLine st l) hst' with ⟨hi, he⟩
      refine ⟨hi, he.trans ?_⟩
      rw [e]
      exact docxBulletLists_flushInv hst
    · by_cases h3 : isH3Line l
      · have e := docxLine_h3 st h3
        have hst' : DocxInv (docxLine st l) := by rw [e]; exact Or.inl rfl
        rcases ih hnb' (docxLine st l) hst' with ⟨hi, he⟩
        refine ⟨hi, he.trans ?_⟩
        rw [e]
        simp only [docxBulletLists_heading]
        exact docxBulletLists_flushInv hst
      · by_cases h2 : isH2Line l
        · have e := docxLine_h2 st h2
          have hst' : DocxInv (docxLine st l) := by rw [e]; exact Or.inl rfl
          rcases ih hnb' (docxLine st l) hst' with ⟨hi, he⟩
          refine ⟨hi, he.trans ?_⟩
          rw [e]
          simp only [docxBulletLists_heading]
          exact docxBulletLists_flushInv hst
        · by_cases h1 : isH1Line l
          · have e := docxLine_h1 st h1
            have hst' : DocxInv (docxLine st l) := by rw [e]; exact Or.inl rfl
            rcases ih hnb' (docxLine st l) hst' with ⟨hi, he⟩
            refine ⟨hi, he.trans ?_⟩
            rw [e]
            simp only [docxBulletLists_heading]
            exact docxBulletLists_flushInv hst
          · have hb' : isBlankLine l = false := by simpa using hb
            have h3' : isH3Line l = false := by simpa using h3
            have h2' : isH2Line l = false := by simpa using h2
            have h1' : isH1Line l = false := by simpa using h1
            rcases hst with hc | ⟨runs, hc⟩
            · have e : docxLine st l = ⟨st.rev, some (false, [pyStrip l])⟩ := by
                rw [docxLine_other st hb' h3' h2' h1' hl, hc]
              have hst' : DocxInv (docxLine st l) := by
                rw [e]; exact Or.inr ⟨[pyStrip l], rfl⟩
              rcases ih hnb' (docxLine st l) hst' with ⟨hi, he⟩
              refine ⟨hi, he.trans ?_⟩
              rw [e]
            · have e : docxLine st l = ⟨st.rev, some (false, runs ++ [' ' :: pyStrip l])⟩ := by
                rw [docxLine_other st hb' h3' h2' h1' hl, hc]
              have hst' : DocxInv (docxLine st l) := by
                rw [e]; exact Or.inr ⟨runs ++ [' ' :: pyStrip l], rfl⟩
              rcases ih hnb' (docxLine st l) hst' with ⟨hi, he⟩
              refine ⟨hi, he.trans ?_⟩
              rw [e]

/-- A reset line (blank or heading) closes the open paragraph and adds no
bullet-list paragraph. -/
theorem docxLine_reset {l : List Char} (st : DocxState) (h : isResetLine l = true) :
    (docxLine st l).cur = none ∧
    docxBulletLists (docxLine st l).rev = docxBulletLists (flushDocx st) := by
  have h' : isBlankLine l = true ∨ isH3Line l = true ∨ isH2Line l = true ∨
      isH1Line l = true := by
    simpa [isResetLine, or_assoc] using h
  rcases h' with hb | h3 | h2 | h1
  · rw [docxLine_blank st hb]; exact ⟨rfl, rfl⟩
  · rw [docxLine_h3 st h3]; exact ⟨rfl, docxBulletLists_heading _ _ _⟩
  · rw [docxLine_h2 st h2]; exact ⟨rfl, docxBulletLists_heading _ _ _⟩
  · rw [docxLine_h1 st h1]; exact ⟨rfl, docxBulletLists_heading _ _ _⟩

/-- Three consecutive bullet lines, hit with no open paragraph, build one
bullet paragraph holding the three items as its runs. -/
theorem docx_three_bullets (st : DocxState) (hc : st.cur = none) {x y z : List Char}
    (hx : isBulletLine x = true) (hy : isBulletLine y = true)
    (hz : isBulletLine z = true) :
    [x, y, z].foldl docxLine st =
      ⟨st.rev, some (true,
        [(pyStrip x).drop 2, (pyStrip y).drop 2, (pyStrip z).drop 2])⟩ := by
  have e1 : docxLine st x = ⟨st.rev, some (true, [(pyStrip x).drop 2])⟩ := by
    rw [docxLine_bullet st hx, hc]
  have e2 : docxLine ⟨st.rev, some (true, [(pyStrip x).drop 2])⟩ y =
      ⟨st.rev, some (true, [(pyStrip x).drop 2, (pyStrip y).drop 2])⟩ := by
    rw [docxLine_bullet _ hy]
    rfl
  have e3 : docxLine ⟨st.rev, some (true, [(pyStrip x).drop 2, (pyStrip y).drop 2])⟩ z =
      ⟨st.rev, some (true,
        [(pyStrip x).drop 2, (pyStrip y).drop 2, (pyStrip z).drop 2])⟩ := by
    rw [docxLine_bullet _ hz]
    rfl
  simp only [List.foldl_cons, List.foldl_nil, e1, e2, e3]

/-! ### Counting over the pdf scan -/

theorem not_blank_of_h3 {l : List Char} (h : isH3Line l = true) :
    isBlankLine l = false := by
  rcases isH3Line_shape h with ⟨t, ht⟩
  simp [isBlankLine, ht]

theorem not_blank_of_h2 {l : List Char} (h : isH2Line l = true) :
    isBlankLine l = false := by
  rcases isH2Line_shape h with ⟨t, ht⟩
  simp [isBlankLine, ht]

theorem not_blank_of_h1 {l : List Char} (h : isH1Line l = true) :
    isBlankLine l = false := by
  rcases isH1Line_shape h with ⟨t, ht⟩
  simp [isBlankLine, ht]

theorem pdfLine_blank {l : List Char} (h : isBlankLine l = true) :
    pdfLine l = [.spacer 12] := by
  simp only [isBlankLine, List.isEmpty_iff] at h
  simp [pdfLine, h]

theorem pdfLine_h3 {l : List Char} (h : isH3Line l = true) :
    pdfLine l = [.heading3 ((pyStrip l).drop 4), .spacer 6] := by
  rcases isH3Line_shape h with ⟨t, ht⟩
  simp [pdfLine, ht, startsWithChars]

theorem pdfLine_h2 {l : List Char} (h : isH2Line l = true) :
    pdfLine l = [.heading2 ((pyStrip l).drop 3), .spacer 6] := by
  rcases isH2Line_shape h with ⟨t, ht⟩
  simp [pdfLine, ht, startsWithChars]

theorem pdfLine_h1 {l : List Char} (h : isH1Line l = true) :
    pdfLine l = [.title ((pyStrip l).drop 2), .spacer 6] := by
  rcases isH1Line_shape h with ⟨t, ht⟩
  simp [pdfLine, ht, startsWithChars]

theorem pdfLine_bullet {l : List Char} (h : isBulletLine l = true) :
    pdfLine l = [.bulletPar ((pyStrip l).drop 2), .spacer 6] := by
  rcases isBulletLine_shape h with ⟨t, ht⟩
  simp [pdfLine, ht, startsWithChars]

theorem pdfLine_other {l : List Char}
    (hb : isBlankLine l = false) (h3 : isH3Line l = false) (h2 : isH2Line l = false)
    (h1 : isH1Line l = false) (hbl : isBulletLine l = false) :
    pdfLine l = [.par (pyStrip l), .spacer 6] := by
  simp only [isBlankLine, isH3Line, isH2Line, isH1Line, isBulletLine] at hb h3 h2 h1 hbl
  simp [pdfLine, hb, h3, h2, h1, hbl]

theorem pdfFromLines_cons (l : List Char) (ls : List (List Char)) :
    pdfFromLines (l :: ls) = pdfLine l ++ pdfFromLines ls := by
  simp [pdfFromLines]

theorem isSpacerElem_title (t : List Char) : isSpacerElem (.title t) = false := rfl

theorem isSpacerElem_heading2 (t : List Char) : isSpacerElem (.heading2 t) = false := rfl

theorem isSpacerElem_heading3 (t : List Char) : isSpacerElem (.heading3 t) = false := rfl

theorem isSpacerElem_bulletPar (t : List Char) : isSpacerElem (.bulletPar t) = false := rfl

theorem isSpacerElem_par (t : List Char) : isSpacerElem (.par t) = false := rfl

theorem isSpacerElem_spacer (n : Nat) : isSpacerElem (.spacer n) = true := rfl

theorem isBulletElem_title (t : List Char) : isBulletElem (.title t) = false := rfl

theorem isBulletElem_heading2 (t : List Char) : isBulletElem (.heading2 t) = false := rfl

theorem isBulletElem_heading3 (t : List Char) : isBulletElem (.heading3 t) = false := rfl

theorem isBulletElem_bulletPar (t : List Char) : isBulletElem (.bulletPar t) = true := rfl

theorem isBulletElem_par (t : List Char) : isBulletElem (.par t) = false := rfl

theorem isBulletElem_spacer (n : Nat) : isBulletElem (.spacer n) = false := rfl

theorem pdfElemCounts_title (t : List Char) (rest : List PdfElem) :
    pdfTitleCount (.title t :: rest) = pdfTitleCount rest + 1 ∧
    pdfHeading2Count (.title t :: rest) = pdfHeading2Count rest := by
  simp [pdfTitleCount, pdfHeading2Count, List.countP_cons]

theorem pdfElemCounts_heading2 (t : List Char) (rest : List PdfElem) :
    pdfTitleCount (.heading2 t :: rest) = pdfTitleCount rest ∧
    pdfHeading2Count (.heading2 t :: rest) = pdfHeading2Count rest + 1 := by
  simp [pdfTitleCount, pdfHeading2Count, List.countP_cons]

theorem pdfElemCounts_other (e : PdfElem) (rest : List PdfElem)
    (ht : ∀ t, e ≠ .title t) (h2 : ∀ t, e ≠ .heading2 t) :
    pdfTitleCount (e :: rest) = pdfTitleCount rest ∧
    pdfHeading2Count (e :: rest) = pdfHeading2Count rest := by
  cases e with
  | title t => exact absurd rfl (ht t)
  | heading2 t => exact absurd rfl (h2 t)
  | heading3 t => simp [pdfTitleCount, pdfHeading2Count, List.countP_cons]
  | bulletPar t => simp [pdfTitleCount, pdfHeading2Count, List.countP_cons]
  | par t => simp [pdfTitleCount, pdfHeading2Count, List.countP_cons]
  | spacer n => simp [pdfTitleCount, pdfHeading2Count, List.countP_cons]

theorem pdfTitleCount_append (a b : List PdfElem) :
    pdfTitleCount (a ++ b) = pdfTitleCount a + pdfTitleCount b := by
  simp [pdfTitleCount, List.countP_append]

theorem pdfHeading2Count_append (a b : List PdfElem) :
    pdfHeading2Count (a ++ b) = pdfHeading2Count a + pdfHeading2Count b := by
  simp [pdfHeading2Count, List.countP_append]

theorem pdfStructural_append (a b : List PdfElem) :
    pdfStructural (a ++ b) = pdfStructural a ++ pdfStructural b := by
  simp [pdfStructural, List.filter_append]

theorem pdfStructural_cons_spacer (n : Nat) (rest : List PdfElem) :
    pdfStructural (.spacer n :: rest) = pdfStructural rest := by
  simp [pdfStructural, isSpacerElem_spacer]

theorem pdfStructural_cons_nonspacer (e : PdfElem) (rest : List PdfElem)
    (he : isSpacerElem e = false) :
    pdfStructural (e :: rest) = e :: pdfStructural rest := by
  simp [pdfStructural, he]

/-- The structural elements of the pdf story are exactly one element per
non-blank line, in order; bullets, Title and Heading2 elements correspond
to bullet, `# ` and `## ` lines. -/
theorem pdf_counts (lines : List (List Char)) :
    (pdfStructural (pdfFromLines lines)).map isBulletElem =
      (lines.filter fun l => !isBlankLine l).map isBulletLine ∧
    pdfTitleCount (pdfFromLines lines) = lines.countP isH1Line ∧
    pdfHeading2Count (pdfFromLines lines) = lines.countP isH2Line := by
  induction lines with
  | nil => simp [pdfFromLines, pdfStructural, pdfTitleCount, pdfHeading2Count]
  | cons l ls ih =>
    rcases ih with ⟨ih1, ih2, ih3⟩
    rw [pdfFromLines_cons]
    by_cases hb : isBlankLine l
    · rw [pdfLine_blank hb]
      refine ⟨?_, ?_, ?_⟩
      · rw [List.singleton_append, pdfStructural_cons_spacer, ih1,
          List.filter_cons_of_neg (by simp [hb])]
      · rw [List.singleton_append, (pdfElemCounts_other _ _ (by intro t h; cases h)
          (by intro t h; cases h)).1, ih2, List.countP_cons, not_h1_of_blank hb]
        simp
      · rw [List.singleton_append, (pdfElemCounts_other _ _ (by intro t h; cases h)
          (by intro t h; cases h)).2, ih3, List.countP_cons, not_h2_of_blank hb]
        simp
    · by_cases h3 : isH3Line l
      · rw [pdfLine_h3 h3]
        refine ⟨?_, ?_, ?_⟩
        · rw [List.cons_append, List.singleton_append,
            pdfStructural_cons_nonspacer _ _ (isSpacerElem_heading3 _),
            pdfStructural_cons_spacer, List.map_cons, ih1,
            List.filter_cons_of_pos (by simp [not_blank_of_h3 h3]),
            List.map_cons, isBulletElem_heading3, not_bullet_of_h3 h3]
        · rw [List.cons_append, List.singleton_append,
            (pdfElemCounts_other _ _ (by intro t h; cases h) (by intro t h; cases h)).1,
            (pdfElemCounts_other _ _ (by intro t h; cases h) (by intro t h; cases h)).1,
            ih2, List.countP_cons, not_h1_of_h3 h3]
          simp
        · rw [List.cons_append, List.singleton_append,
            (pdfElemCounts_other _ _ (by intro t h; cases h) (by intro t h; cases h)).2,
            (pdfElemCounts_other _ _ (by intro t h; cases h) (by intro t h; cases h)).2,
            ih3, List.countP_cons, not_h2_of_h3 h3]
          simp
      · by_cases h2 : isH2Line l
        · rw [pdfLine_h2 h2]
          refine ⟨?_, ?_, ?_⟩
          · rw [List.cons_append, List.singleton_append,
              pdfStructural_cons_nonspacer _ _ (isSpacerElem_heading2 _),
              pdfStructural_cons_spacer, List.map_cons, ih1,
              List.filter_cons_of_pos (by simp [not_blank_of_h2 h2]),
              List.map_cons, isBulletElem_heading2, not_bullet_of_h2 h2]
          · rw [List.cons_append, List.singleton_append,
              (pdfElemCounts_heading2 _ _).1,
              (pdfElemCounts_other _ _ (by intro t h; cases h) (by intro t h; cases h)).1,
              ih2, List.countP_cons, not_h1_of_h2 h2]
            simp
          · rw [List.cons_append, List.singleton_append,
              (pdfElemCounts_heading2 _ _).2,
              (pdfElemCounts_other _ _ (by intro t h; cases h) (by intro t h; cases h)).2,
              ih3, List.countP_cons, h2]
            simp
        · by_cases h1 : isH1Line l
          · rw [pdfLine_h1 h1]
            refine ⟨?_, ?_, ?_⟩
            · rw [List.cons_append, List.singleton_append,
                pdfStructural_cons_nonspacer _ _ (isSpacerElem_title _),
                pdfStructural_cons_spacer, List.map_cons, ih1,
                List.filter_cons_of_pos (by simp [not_blank_of_h1 h1]),
                List.map_cons, isBulletElem_title, not_bullet_of_h1 h1]
            · rw [List.cons_append, List.singleton_append,
                (pdfElemCounts_title _ _).1,
                (pdfElemCounts_other _ _ (by intro t h; cases h) (by intro t h; cases h)).1,
                ih2, List.countP_cons, h1]
              simp
            · rw [List.cons_append, List.singleton_append,
                (pdfElemCounts_title _ _).2,
                (pdfElemCounts_other _ _ (by intro t h; cases h) (by intro t h; cases h)).2,
                ih3, List.countP_cons, not_h2_of_h1 h1]
              simp
          · by_cases hbl : isBulletLine l
            · rw [pdfLine_bullet hbl]
              refine ⟨?_, ?_, ?_⟩
              · rw [List.cons_append, List.singleton_append,
                  pdfStructural_cons_nonspacer _ _ (isSpacerElem_bulletPar _),
                  pdfStructural_cons_spacer, List.map_cons, ih1,
                  List.filter_cons_of_pos (by simp [not_blank_of_bullet hbl]),
                  List.map_cons, isBulletElem_bulletPar, hbl]
              · rw [List.cons_append, List.singleton_append,
                  (pdfElemCounts_other _ _ (by intro t h; cases h) (by intro t h; cases h)).1,
                  (pdfElemCounts_other _ _ (by intro t h; cases h) (by intro t h; cases h)).1,
                  ih2, List.countP_cons, not_h1_of_bullet hbl]
                simp
              · rw [List.cons_append, List.singleton_append,
                  (pdfElemCounts_other _ _ (by intro t h; cases h) (by intro t h; cases h)).2,
                  (pdfElemCounts_other _ _ (by intro t h; cases h) (by intro t h; cases h)).2,
                  ih3, List.countP_cons, not_h2_of_bullet hbl]
                simp
            · have hb' : isBlankLine l = false := by simpa using hb
              have h3' : isH3Line l = false := by simpa using h3
              have h2' : isH2Line l = false := by simpa using h2
              have h1' : isH1Line l = false := by simpa using h1
              have hbl' : isBulletLine l = false := by simpa using hbl
              rw [pdfLine_other hb' h3' h2' h1' hbl']
              refine ⟨?_, ?_, ?_⟩
              · rw [List.cons_append, List.singleton_append,
                  pdfStructural_cons_nonspacer _ _ (isSpacerElem_par _),
                  pdfStructural_cons_spacer, List.map_cons, ih1,
                  List.filter_cons_of_pos (by simp [hb']),
                  List.map_cons, isBulletElem_par, hbl']
              · rw [List.cons_append, List.singleton_append,
                  (pdfElemCounts_other _ _ (by intro t h; cases h) (by intro t h; cases h)).1,
                  (pdfElemCounts_other _ _ (by intro t h; cases h) (by intro t h; cases h)).1,
                  ih2, List.countP_cons, h1']
                simp
              · rw [List.cons_append, List.singleton_append,
                  (pdfElemCounts_other _ _ (by intro t h; cases h) (by intro t h; cases h)).2,
                  (pdfElemCounts_other _ _ (by intro t h; cases h) (by intro t h; cases h)).2,
                  ih3, List.countP_cons, h2']
                simp

/-! ### Maximal runs of `true` -/

theorem trueRunsAux_allFalse {L : List Bool} (hL : ∀ b ∈ L, b = false) :
    ∀ M, trueRunsAux 0 (L ++ M) = trueRunsAux 0 M := by
  induction L with
  | nil => intro M; rfl
  | cons b L ih =>
    intro M
    have hb : b = false := hL b (List.mem_cons_self b L)
    subst hb
    rw [List.cons_append]
    show trueRunsAux 0 (L ++ M) = trueRunsAux 0 M
    exact ih (fun b hb => hL b (List.mem_cons_of_mem _ hb)) M

theorem trueRunsAux_pos_allFalse {B : List Bool} (hB : ∀ b ∈ B, b = false) :
    ∀ c, c ≠ 0 → trueRunsAux c B = [c] := by
  induction B with
  | nil => intro c hc; simp [trueRunsAux, hc]
  | cons b B ih =>
    intro c hc
    have hb : b = false := hB b (List.mem_cons_self b B)
    subst hb
    show (if c = 0 then trueRunsAux 0 B else c :: trueRunsAux 0 B) = [c]
    rw [if_neg hc]
    have : trueRunsAux 0 B = [] := by
      have := trueRunsAux_allFalse (L := B)
        (fun b hb => hB b (List.mem_cons_of_mem _ hb)) []
      simpa using this
    rw [this]

theorem trueRuns_single_triple {mA mB : List Bool}
    (hA : ∀ b ∈ mA, b = false) (hB : ∀ b ∈ mB, b = false) :
    trueRuns (mA ++ true :: true :: true :: mB) = [3] := by
  rw [trueRuns, trueRunsAux_allFalse hA]
  show trueRunsAux 1 (true :: true :: mB) = [3]
  show trueRunsAux 2 (true :: mB) = [3]
  show trueRunsAux 3 mB = [3]
  exact trueRunsAux_pos_allFalse hB 3 (by omega)

/-- C1 fails as stated: the canonical document
`"# H\n## S\nx\n- a\n- b\n- c"` has exactly one `# ` line, one `## ` line
and three consecutive `- ` lines, yet `_create_docx` renders it with no
bullet-list element at all (the bullet lines are swallowed as runs of the
open paragraph `x`), while `_create_pdf` renders one three-item bullet
list — so the docx artifact does not have one three-item list, and the
structural count differs between the two targets. -/
theorem C1_counterexample_open_paragraph :
    (splitOnNl "# H\n## S\nx\n- a\n- b\n- c".data).map isBulletLine =
      [false, false, false, true, true, true] ∧
    (splitOnNl "# H\n## S\nx\n- a\n- b\n- c".data).countP isH1Line = 1 ∧
    (splitOnNl "# H\n## S\nx\n- a\n- b\n- c".data).countP isH2Line = 1 ∧
    docxBulletLists (createDocx "# H\n## S\nx\n- a\n- b\n- c".data) = [] ∧
    pdfBulletLists (createPdf "# H\n## S\nx\n- a\n- b\n- c".data) = [3] := by
  refine ⟨?_, ?_, ?_, ?_, ?_⟩ <;> decide

/-- C1 amended: for lines with exactly one `# ` line, one `## ` line and
exactly three bullet lines, consecutive, whose block is bounded by the
document edge, a blank line or a heading line on both sides (so that no
paragraph accumulator is open at the first bullet and none of the
following lines attaches to the list), both renderers produce exactly one
level-1 heading, one level-2 heading and one bullet list of three items.
-/
theorem C1_render_structure_counts
    (A B : List (List Char)) (x y z : List Char)
    (hx : isBulletLine x = true) (hy : isBulletLine y = true)
    (hz : isBulletLine z = true)
    (hAnb : ∀ l ∈ A, isBulletLine l = false) (hBnb : ∀ l ∈ B, isBulletLine l = false)
    (hH1 : (A ++ ([x, y, z] ++ B)).countP isH1Line = 1)
    (hH2 : (A ++ ([x, y, z] ++ B)).countP isH2Line = 1)
    (hA : A = [] ∨ ∃ A₀ lr, A = A₀ ++ [lr] ∧ isResetLine lr = true)
    (hB : B = [] ∨ ∃ l₀ B₁, B = l₀ :: B₁ ∧ isResetLine l₀ = true) :
    docxHeadingCount 1 (docxFromLines (A ++ ([x, y, z] ++ B))) = 1 ∧
    docxHeadingCount 2 (docxFromLines (A ++ ([x, y, z] ++ B))) = 1 ∧
    docxBulletLists (docxFromLines (A ++ ([x, y, z] ++ B))) = [3] ∧
    pdfTitleCount (pdfFromLines (A ++ ([x, y, z] ++ B))) = 1 ∧
    pdfHeading2Count (pdfFromLines (A ++ ([x, y, z] ++ B))) = 1 ∧
    pdfBulletLists (pdfFromLines (A ++ ([x, y, z] ++ B))) = [3] := by
  refine ⟨?_, ?_, ?_, ?_, ?_, ?_⟩
  · rw [docx_h1_count]; exact hH1
  · rw [docx_h2_count]; exact hH2
  · -- docx bullet list structure
    have hInit : DocxInv (⟨[], none⟩ : DocxState) := Or.inl rfl
    rcases docx_noBullet_fold A hAnb ⟨[], none⟩ hInit with ⟨hInvA, hRevA⟩
    set stA := A.foldl docxLine ⟨[], none⟩ with hstA
    have hRevA' : docxBulletLists stA.rev = [] := by
      rw [hRevA]; rfl
    have hcurA : stA.cur = none := by
      rcases hA with rfl | ⟨A₀, lr, rfl, hlr⟩
      · rfl
      · rw [hstA, List.foldl_append, List.foldl_cons, List.foldl_nil]
        exact (docxLine_reset _ hlr).1
    have hst3 : ([x, y, z].foldl docxLine stA) =
        ⟨stA.rev, some (true,
          [(pyStrip x).drop 2, (pyStrip y).drop 2, (pyStrip z).drop 2])⟩ :=
      docx_three_bullets stA hcurA hx hy hz
    rw [docxFromLines, List.foldl_append, List.foldl_append, ← hstA, hst3]
    rcases hB with rfl | ⟨l₀, B₁, rfl, hl₀⟩
    · rw [List.foldl_nil, docxBulletLists_reverse, flushDocx_some,
        docxBulletLists_para_true, hRevA']
      rfl
    · have hB₁nb : ∀ l ∈ B₁, isBulletLine l = false :=
        fun l hl => hBnb l (List.mem_cons_of_mem _ hl)
      rw [List.foldl_cons]
      set st4 := docxLine
        ⟨stA.rev, some (true,
          [(pyStrip x).drop 2, (pyStrip y).drop 2, (pyStrip z).drop 2])⟩ l₀ with hst4
      have hreset := docxLine_reset
        (⟨stA.rev, some (true,
          [(pyStrip x).drop 2, (pyStrip y).drop 2, (pyStrip z).drop 2])⟩ : DocxState) hl₀
      have hcur4 : st4.cur = none := hreset.1
      have hrev4 : docxBulletLists st4.rev = [3] := by
        rw [hst4, hreset.2, flushDocx_some, docxBulletLists_para_true, hRevA']
        rfl
      rcases docx_noBullet_fold B₁ hB₁nb st4 (Or.inl hcur4) with ⟨hInvF, hRevF⟩
      rw [docxBulletLists_reverse, docxBulletLists_flushInv hInvF, hRevF, hrev4]
      rfl
  · rw [(pdf_counts _).2.1]; exact hH1
  · rw [(pdf_counts _).2.2]; exact hH2
  · rw [pdfBulletLists, (pdf_counts _).1, List.filter_append, List.filter_append,
      List.map_append, List.map_append]
    have hxyz : ([x, y, z].filter fun l => !isBlankLine l) = [x, y, z] := by
      rw [List.filter_cons_of_pos (by simp [not_blank_of_bullet hx]),
        List.filter_cons_of_pos (by simp [not_blank_of_bullet hy]),
        List.filter_cons_of_pos (by simp [not_blank_of_bullet hz]),
        List.filter_nil]
    rw [hxyz]
    have hmap : [x, y, z].map isBulletLine = [true, true, true] := by
      simp [hx, hy, hz]
    rw [hmap]
    have hmA : ∀ b ∈ (A.filter fun l => !isBlankLine l).map isBulletLine,
        b = false := by
      intro b hb
      rcases List.mem_map.mp hb with ⟨l, hl, rfl⟩
      exact hAnb l (List.mem_filter.mp hl).1
    have hmB : ∀ b ∈ (B.filter fun l => !isBlankLine l).map isBulletLine,
        b = false := by
      intro b hb
      rcases List.mem_map.mp hb with ⟨l, hl, rfl⟩
      exact hBnb l (List.mem_filter.mp hl).1
    exact trueRuns_single_triple hmA hmB

/-- Witness for the amended C1 at the concrete document
`# T / ## S / - a / - b / - c`. -/
theorem C1_render_structure_counts_witness :
    docxBulletLists (docxFromLines (["# T".data, "## S".data] ++
      (["- a".data, "- b".data, "- c".data] ++ []))) = [3] ∧
    docxHeadingCount 1 (docxFromLines (["# T".data, "## S".data] ++
      (["- a".data, "- b".data, "- c".data] ++ []))) = 1 ∧
    pdfBulletLists (pdfFromLines (["# T".data, "## S".data] ++
      (["- a".data, "- b".data, "- c".data] ++ []))) = [3] := by
  have h := C1_render_structure_counts ["# T".data, "## S".data] []
    "- a".data "- b".data "- c".data
    (by decide) (by decide) (by decide) (by decide) (by decide)
    (by decide) (by decide)
    (Or.inr ⟨["# T".data], "## S".data, rfl, by decide⟩) (Or.inl rfl)
  exact ⟨h.2.2.1, h.1, h.2.2.2.2.2⟩

/-! ### Fallback synthesizer: the Work Experience section -/

theorem ne_of_ne_head {a b : List Char} (h : a.head? ≠ b.head?) : a ≠ b :=
  fun he => h (congrArg List.head? he)

theorem ne_of_ne_take4 {a b : List Char} (h : a.take 4 ≠ b.take 4) : a ≠ b :=
  fun he => h (congrArg (List.take 4) he)

theorem nl_in_work_heading : '\n' ∈ "\n## Work Experience".data := by decide

theorem ne_work_heading_of_nl_free {s : List Char} (h : '\n' ∉ s) :
    s ≠ "\n## Work Experience".data :=
  fun he => h (he ▸ nl_in_work_heading)

theorem joinCommaSpace_nl_free :
    ∀ items : List (List Char), (∀ s ∈ items, '\n' ∉ s) →
      '\n' ∉ joinCommaSpace items
  | [], _ => by simp [joinCommaSpace]
  | [x], h => by
    simpa [joinCommaSpace] using h x (List.mem_singleton.mpr rfl)
  | x :: y :: rest, h => by
    have hx := h x (List.mem_cons_self _ _)
    have hrest := joinCommaSpace_nl_free (y :: rest)
      (fun s hs => h s (List.mem_cons_of_mem _ hs))
    show '\n' ∉ x ++ ',' :: ' ' :: joinCommaSpace (y :: rest)
    intro hmem
    rcases List.mem_append.mp hmem with hm | hm
    · exact hx hm
    · rcases hm with _ | ⟨_, hm⟩
      rcases hm with _ | ⟨_, hm⟩
      exact hrest hm

theorem work_heading_not_in_header (p : PersonalInfo)
    (hsum : ∀ s, p.summary = some s → '\n' ∉ s) :
    "\n## Work Experience".data ∉ headerLines p := by
  intro hmem
  rw [headerLines] at hmem
  rcases List.mem_append.mp hmem with hmem | hmem
  rcases List.mem_append.mp hmem with hmem | hmem
  rcases List.mem_append.mp hmem with hmem | hmem
  rcases List.mem_append.mp hmem with hmem | hmem
  rcases List.mem_append.mp hmem with hmem | hmem
  rcases List.mem_append.mp hmem with hmem | hmem
  · -- "# " ++ name
    have h := List.mem_singleton.mp hmem
    exact absurd (congrArg List.head? h) (by simp)
  · -- email | phone
    have h := List.mem_singleton.mp hmem
    have hp : '|' ∈ p.email.getD [] ++ " | ".data ++ p.phone.getD [] := by simp
    rw [← h] at hp
    exact absurd hp (by decide)
  · -- LinkedIn
    by_cases hl : optTruthy p.linkedin = true
    · rw [if_pos hl] at hmem
      have h := List.mem_singleton.mp hmem
      exact absurd (congrArg List.head? h) (by simp)
    · rw [if_neg hl] at hmem
      simp at hmem
  · -- GitHub
    by_cases hg : optTruthy p.github = true
    · rw [if_pos hg] at hmem
      have h := List.mem_singleton.mp hmem
      exact absurd (congrArg List.head? h) (by simp)
    · rw [if_neg hg] at hmem
      simp at hmem
  · -- Location
    by_cases hlo : optTruthy p.location = true
    · rw [if_pos hlo] at hmem
      have h := List.mem_singleton.mp hmem
      exact absurd (congrArg List.head? h) (by simp)
    · rw [if_neg hlo] at hmem
      simp at hmem
  · -- "\n## Summary"
    have h := List.mem_singleton.mp hmem
    exact absurd h (by decide)
  · -- summary text
    have h := List.mem_singleton.mp hmem
    rcases hs : p.summary with _ | s
    · rw [hs] at h
      exact absurd h (by decide)
    · rw [hs] at h
      simp only [Option.getD_some] at h
      exact absurd (h ▸ nl_in_work_heading) (hsum s hs)

theorem work_heading_not_in_edu_entry (e : EduEntry)
    (hinst : ∀ s, e.institution = some s → '\n' ∉ s) :
    "\n## Work Experience".data ∉ eduEntryLines e := by
  intro hmem
  rw [eduEntryLines] at hmem
  rcases List.mem_append.mp hmem with hmem | hmem
  rcases List.mem_append.mp hmem with hmem | hmem
  · -- "\n### " ++ degree ++ field
    have h := List.mem_singleton.mp hmem
    exact absurd (congrArg (List.take 4) h) (by simp)
  · -- institution
    have h := List.mem_singleton.mp hmem
    rcases hs : e.institution with _ | s
    · rw [hs] at h
      exact absurd h (by decide)
    · rw [hs] at h
      simp only [Option.getD_some] at h
      exact absurd (h ▸ nl_in_work_heading) (hinst s hs)
  · -- "*" ++ dates ++ "*"
    have h := List.mem_singleton.mp hmem
    exact absurd (congrArg List.head? h) (by simp)

theorem work_heading_not_in_education (edu : List EduEntry)
    (hinst : ∀ e ∈ edu, ∀ s, e.institution = some s → '\n' ∉ s) :
    "\n## Work Experience".data ∉ educationLines edu := by
  intro hmem
  rw [educationLines] at hmem
  by_cases he : edu.isEmpty = true
  · rw [if_pos he] at hmem
    simp at hmem
  · rw [if_neg he] at hmem
    rcases List.mem_cons.mp hmem with h | hmem
    · exact absurd h (by decide)
    · rcases List.mem_flatten.mp hmem with ⟨li, hli, hmem'⟩
      rcases List.mem_map.mp hli with ⟨e, he', rfl⟩
      exact work_heading_not_in_edu_entry e (fun s hs => hinst e he' s hs) hmem'

theorem work_heading_not_in_skills (sk : SkillsValue)
    (hsk : ∀ s, (sk = SkillsValue.raw s → '\n' ∉ s) ∧
      (∀ items, sk = SkillsValue.list items → s ∈ items → '\n' ∉ s)) :
    "\n## Work Experience".data ∉ skillsLines sk := by
  intro hmem
  cases sk with
  | list items =>
    rw [skillsLines] at hmem
    by_cases hi : items.isEmpty = true
    · rw [if_pos hi] at hmem
      simp at hmem
    · rw [if_neg hi] at hmem
      rcases List.mem_cons.mp hmem with h | hmem
      · exact absurd h (by decide)
      · rcases List.mem_cons.mp hmem with h | hmem
        · have hfree : '\n' ∉ joinCommaSpace items :=
            joinCommaSpace_nl_free items
              (fun s hs => (hsk s).2 items rfl hs)
          exact hfree (h ▸ nl_in_work_heading)
        · simp at hmem
  | raw s =>
    rw [skillsLines] at hmem
    by_cases hi : s.isEmpty = true
    · rw [if_pos hi] at hmem
      simp at hmem
    · rw [if_neg hi] at hmem
      rcases List.mem_cons.mp hmem with h | hmem
      · exact absurd h (by decide)
      · rcases List.mem_cons.mp hmem with h | hmem
        · exact (hsk s).1 rfl (h ▸ nl_in_work_heading)
        · simp at hmem

/-- C7 fails as stated: the fallback synthesizer, given a well-typed input
with an empty `work_experience`, omits the "Work Experience" section
entirely — the heading is absent, contradicting "the heading is present
but contains no bullet items". -/
theorem C7_counterexample_heading_absent :
    ({} : CvData).work_experience = [] ∧
    "\n## Work Experience".data ∉ generateFallbackCvLines {} ∧
    "## Work Experience".data ∉ splitOnNl (generateFallbackCv {}) := by
  refine ⟨rfl, ?_, ?_⟩ <;> decide

/-- C7 amended: for input whose summary, institutions and skills are
single-line strings, the fallback CV contains the "Work Experience"
section heading exactly when `work_experience` is non-empty — for empty
`work_experience` the whole section (heading included) is omitted; and the
synthesizer is a total function, so well-typed empty input never raises.
-/
theorem C7_experience_section_iff (cv : CvData)
    (hsum : ∀ s, cv.personal_info.summary = some s → '\n' ∉ s)
    (hinst : ∀ e ∈ cv.education, ∀ s, e.institution = some s → '\n' ∉ s)
    (hsk : ∀ s, (cv.skills = SkillsValue.raw s → '\n' ∉ s) ∧
      (∀ items, cv.skills = SkillsValue.list items → s ∈ items → '\n' ∉ s)) :
    ("\n## Work Experience".data ∈ generateFallbackCvLines cv ↔
      cv.work_experience ≠ []) := by
  have hhead := work_heading_not_in_header cv.personal_info hsum
  have hedu := work_heading_not_in_education cv.education hinst
  have hskl := work_heading_not_in_skills cv.skills hsk
  constructor
  · intro hmem
    rw [generateFallbackCvLines] at hmem
    rcases List.mem_append.mp hmem with hmem | hmem
    rcases List.mem_append.mp hmem with hmem | hmem
    rcases List.mem_append.mp hmem with hmem | hmem
    · exact absurd hmem hhead
    · intro hw
      rw [workLines, if_pos (by simp [hw])] at hmem
      simp at hmem
    · exact absurd hmem hedu
    · exact absurd hmem hskl
  · intro hw
    rw [generateFallbackCvLines]
    refine List.mem_append.mpr (Or.inl (List.mem_append.mpr (Or.inl
      (List.mem_append.mpr (Or.inr ?_)))))
    rw [workLines, if_neg (by simpa using hw)]
    exact List.mem_cons_self _ _

/-- Witness for the amended C7 at the all-empty input. -/
theorem C7_experience_section_iff_witness :
    "\n## Work Experience".data ∉ generateFallbackCvLines {} := by
  have h := C7_experience_section_iff {}
    (fun s hs => Option.noConfusion hs)
    (fun e he => absurd he (List.not_mem_nil e))
    (fun s => ⟨fun hr => SkillsValue.noConfusion hr,
      fun items hl hs => by
        cases hl
        exact absurd hs (List.not_mem_nil s)⟩)
  intro hmem
  exact (h.mp hmem) rfl

/-- C8: the renderer's failure policy at the failing input.  The first
conjunct shows the code bug: with empty markdown content and a raising
docx writer, `generate_cv` returns the markdown-fallback file as a valid
artifact although its size is zero bytes — the missing-or-empty check at
line 91 is applied to the requested-format file but not to the fallback
write at lines 110-113.  The remaining conjuncts are the parts of the
claim the code honours: a raising non-markdown render always attempts the
markdown fallback before failing, and a zero-byte output of the requested
markdown render is reported as a failure. -/
theorem C8_zero_byte_fallback_returned :
    generateCvRender [] CvOutFmt.docx PrimaryOutcome.raises =
      Except.ok ⟨CvOutFmt.md, 0⟩ ∧
    (∀ (content : List Char) (fmt : CvOutFmt), fmt ≠ CvOutFmt.md →
      generateCvRender content fmt PrimaryOutcome.raises =
        Except.ok ⟨CvOutFmt.md, mdByteSize content⟩) ∧
    (∀ content : List Char, mdByteSize content = 0 →
      generateCvRender content CvOutFmt.md PrimaryOutcome.raises =
        Except.error ()) ∧
    (∀ (content : List Char) (fmt : CvOutFmt), fmt ≠ CvOutFmt.md →
      generateCvRender content fmt (PrimaryOutcome.completes 0) =
        Except.ok ⟨CvOutFmt.md, mdByteSize content⟩) := by
  refine ⟨rfl, ?_, ?_, ?_⟩
  · intro content fmt hf
    cases fmt with
    | md => exact absurd rfl hf
    | docx => rfl
    | pdf => rfl
  · intro content h
    simp [generateCvRender, h]
  · intro content fmt hf
    cases fmt with
    | md => exact absurd rfl hf
    | docx => simp [generateCvRender]
    | pdf => simp [generateCvRender]

/-! ### Normalization: whitespace collapse -/

theorem space_is_ws : isPySpace ' ' = true := by decide

theorem nl_is_ws : isPySpace '\n' = true := by decide

theorem ff_is_ws : isPySpace (Char.ofNat 0x0c) = true := by decide

theorem collapseWsAux_ws : ∀ (b : Bool) (s : List Char),
    onlySpaceWs (collapseWsAux b s)
  | _, [] => by intro c hc; cases hc
  | b, c :: rest => by
    intro d hd hws
    rw [collapseWsAux] at hd
    by_cases hc : isPySpace c = true
    · rw [if_pos hc] at hd
      cases b with
      | true => exact collapseWsAux_ws true rest d hd hws
      | false =>
        rcases List.mem_cons.mp hd with rfl | hd'
        · rfl
        · exact collapseWsAux_ws true rest d hd' hws
    · rw [if_neg hc] at hd
      rcases List.mem_cons.mp hd with rfl | hd'
      · exact absurd hws (by simpa using hc)
      · exact collapseWsAux_ws false rest d hd' hws

theorem collapseWsAux_true_head : ∀ (s : List Char) (c : Char),
    (collapseWsAux true s).head? = some c → isPySpace c = false
  | [], c => by intro h; cases h
  | d :: rest, c => by
    intro h
    rw [collapseWsAux] at h
    by_cases hd : isPySpace d = true
    · rw [if_pos hd] at h
      exact collapseWsAux_true_head rest c h
    · rw [if_neg hd] at h
      cases h
      simpa using hd

theorem collapseWsAux_chain : ∀ (s : List Char) (b : Bool),
    noDoubleSpace (collapseWsAux b s)
  | [], _ => List.chain'_nil
  | c :: rest, b => by
    rw [collapseWsAux]
    by_cases hc : isPySpace c = true
    · rw [if_pos hc]
      cases b with
      | true => exact collapseWsAux_chain rest true
      | false =>
        refine List.chain'_cons'.mpr ⟨?_, collapseWsAux_chain rest true⟩
        intro y hy
        have := collapseWsAux_true_head rest y hy
        intro ⟨_, hy'⟩
        rw [hy'] at this
        exact absurd space_is_ws (by simpa using this)
    · rw [if_neg hc]
      refine List.chain'_cons'.mpr ⟨?_, collapseWsAux_chain rest false⟩
      intro y _
      intro ⟨hc', _⟩
      rw [hc'] at hc
      exact hc space_is_ws

theorem collapseWsAux_true_eq_false (s : List Char)
    (h : ∀ c, s.head? = some c → isPySpace c = false) :
    collapseWsAux true s = collapseWsAux false s := by
  cases s with
  | nil => rfl
  | cons c rest =>
    have hc := h c rfl
    rw [collapseWsAux, collapseWsAux, if_neg (by simp [hc]), if_neg (by simp [hc])]

theorem collapseWs_id : ∀ s : List Char, onlySpaceWs s → noDoubleSpace s →
    collapseWs s = s
  | [], _, _ => rfl
  | c :: rest, hw, hc => by
    rw [collapseWs, collapseWsAux]
    by_cases hcs : isPySpace c = true
    · have hceq : c = ' ' := hw c (List.mem_cons_self _ _) hcs
      rw [if_pos hcs]
      have hhead : ∀ d, rest.head? = some d → isPySpace d = false := by
        intro d hd
        have hpair := (List.chain'_cons'.mp hc).1 d hd
        by_contra hws
        have hdw : isPySpace d = true := by simpa using hws
        have hdmem : d ∈ rest := by
          cases rest with
          | nil => cases hd
          | cons a l => cases hd; exact List.mem_cons_self _ _
        have hdeq : d = ' ' := hw d (List.mem_cons_of_mem _ hdmem) hdw
        exact hpair ⟨hceq, hdeq⟩
      rw [collapseWsAux_true_eq_false rest hhead]
      have := collapseWs_id rest
        (fun d hd => hw d (List.mem_cons_of_mem _ hd))
        (List.chain'_cons'.mp hc).2
      rw [collapseWs] at this
      rw [this, hceq]
      simp
    · rw [if_neg hcs]
      have := collapseWs_id rest
        (fun d hd => hw d (List.mem_cons_of_mem _ hd))
        (List.chain'_cons'.mp hc).2
      rw [collapseWs] at this
      rw [this]

/-! ### Normalization: strip -/

theorem pyStrip_eq (s : List Char) :
    pyStrip s = List.rdropWhile isPySpace (List.dropWhile isPySpace s) := rfl

theorem pyStrip_part_of (s : List Char) : pyStrip s <:+: s := by
  rw [pyStrip_eq]
  exact (List.rdropWhile_prefix isPySpace _).isInfix.trans
    (List.dropWhile_suffix isPySpace).isInfix

theorem pyStrip_subset {s : List Char} {c : Char} (h : c ∈ pyStrip s) : c ∈ s :=
  (pyStrip_part_of s).sublist.subset h

theorem pyStrip_onlySpaceWs {s : List Char} (h : onlySpaceWs s) :
    onlySpaceWs (pyStrip s) :=
  fun c hc hws => h c (pyStrip_subset hc) hws

theorem pyStrip_noDoubleSpace {s : List Char} (h : noDoubleSpace s) :
    noDoubleSpace (pyStrip s) :=
  h.infix (pyStrip_part_of s)

theorem pyStrip_head?_not (s : List Char) :
    ∀ c, (pyStrip s).head? = some c → isPySpace c = false := by
  intro c hc
  rw [pyStrip_eq] at hc
  have hne : List.rdropWhile isPySpace (List.dropWhile isPySpace s) ≠ [] := by
    intro he
    rw [he] at hc
    cases hc
  rcases List.rdropWhile_prefix isPySpace (List.dropWhile isPySpace s) with ⟨t, ht⟩
  have hu : (List.dropWhile isPySpace s).head? = some c := by
    rw [← ht, List.head?_append_of_ne_nil _ hne]
    exact hc
  have hune : List.dropWhile isPySpace s ≠ [] := by
    intro he
    rw [he] at hu
    cases hu
  have h3 := List.head?_eq_head hune
  rw [hu] at h3
  have hlem := List.head_dropWhile_not isPySpace s hune
  rw [← Option.some_injective _ h3] at hlem
  exact hlem

theorem pyStrip_getLast?_not (s : List Char) :
    ∀ c, (pyStrip s).getLast? = some c → isPySpace c = false := by
  intro c hc
  rw [pyStrip_eq] at hc
  have hne : List.rdropWhile isPySpace (List.dropWhile isPySpace s) ≠ [] := by
    intro he
    rw [he] at hc
    cases hc
  have hlast := List.rdropWhile_last_not isPySpace (List.dropWhile isPySpace s) hne
  have h2 := List.getLast?_eq_getLast
    (List.rdropWhile isPySpace (List.dropWhile isPySpace s)) hne
  rw [hc] at h2
  rw [← Option.some_injective _ h2] at hlast
  simpa using hlast

theorem pyStrip_eq_self (s : List Char)
    (hh : ∀ c, s.head? = some c → isPySpace c = false)
    (hl : ∀ c, s.getLast? = some c → isPySpace c = false) :
    pyStrip s = s := by
  rw [pyStrip_eq]
  have h1 : List.dropWhile isPySpace s = s := by
    cases s with
    | nil => rfl
    | cons a l =>
      rw [List.dropWhile_cons, if_neg (by simp [hh a rfl])]
  rw [h1]
  rw [List.rdropWhile_eq_self_iff]
  intro hne
  have := hl (s.getLast hne) (List.getLast?_eq_getLast s hne)
  simp [this]

/-! ### Normalization: form feeds and bullets -/

theorem removeFormFeed_id {s : List Char} (hw : onlySpaceWs s) :
    removeFormFeed s = s := by
  rw [removeFormFeed, List.filter_eq_self]
  intro c hc
  by_contra hne
  have hff : c = Char.ofNat 0x0c := by simpa using hne
  have := hw c hc (hff ▸ ff_is_ws)
  rw [hff] at this
  exact absurd this (by decide)

theorem bulletPiece_ne_nil (c : Char) : bulletPiece c ≠ [] := by
  rw [bulletPiece]
  split <;> simp [bulletRepl]

theorem fixBullets_nil : fixBullets [] = [] := rfl

theorem fixBullets_cons (c : Char) (rest : List Char) :
    fixBullets (c :: rest) = bulletPiece c ++ fixBullets rest := by
  simp [fixBullets]

theorem fixBullets_eq_nil_iff (u : List Char) : fixBullets u = [] ↔ u = [] := by
  cases u with
  | nil => simp [fixBullets]
  | cons c rest =>
    rw [fixBullets_cons]
    simp only [List.append_eq_nil]
    constructor
    · rintro ⟨h, _⟩
      exact absurd h (bulletPiece_ne_nil c)
    · intro h
      cases h

theorem mem_bulletPiece_not_ws {c d : Char} (hd : d ∈ bulletPiece c)
    (hc : isPySpace c = true → c = ' ') : isPySpace d = true → d = ' ' := by
  rw [bulletPiece] at hd
  by_cases hb : c = bulletChar
  · rw [if_pos hb] at hd
    fin_cases hd <;> intro h <;> exact absurd h (by decide)
  · rw [if_neg hb] at hd
    rcases List.mem_singleton.mp hd with rfl
    exact hc

theorem fixBullets_onlySpaceWs {u : List Char} (hw : onlySpaceWs u) :
    onlySpaceWs (fixBullets u) := by
  intro d hd
  rw [fixBullets] at hd
  rcases List.mem_flatten.mp hd with ⟨piece, hpiece, hdp⟩
  rcases List.mem_map.mp hpiece with ⟨c, hcu, rfl⟩
  exact mem_bulletPiece_not_ws hdp (hw c hcu)

theorem bulletPiece_head (c : Char) :
    (bulletPiece c).head? = some (if c = bulletChar then Char.ofNat 0xe2 else c) := by
  rw [bulletPiece]
  split <;> simp_all [bulletRepl]

theorem bulletPiece_getLast (c : Char) :
    (bulletPiece c).getLast? = some (if c = bulletChar then Char.ofNat 0xa2 else c) := by
  rw [bulletPiece]
  split <;> simp_all [bulletRepl]

theorem fixBullets_head?_not {u : List Char}
    (hh : ∀ c, u.head? = some c → isPySpace c = false) :
    ∀ d, (fixBullets u).head? = some d → isPySpace d = false := by
  intro d hd
  cases u with
  | nil => cases hd
  | cons c rest =>
    rw [fixBullets_cons,
      List.head?_append_of_ne_nil _ (bulletPiece_ne_nil c), bulletPiece_head] at hd
    cases hd
    by_cases hb : c = bulletChar
    · rw [if_pos hb]; decide
    · rw [if_neg hb]; exact hh c rfl

theorem fixBullets_getLast?_not : ∀ (u : List Char),
    (∀ c, u.getLast? = some c → isPySpace c = false) →
    ∀ d, (fixBullets u).getLast? = some d → isPySpace d = false
  | [], _, d => by intro hd; cases hd
  | c :: rest, hl, d => by
    intro hd
    rw [fixBullets_cons] at hd
    cases hrest : rest with
    | nil =>
      rw [hrest] at hd
      simp only [fixBullets_nil, List.append_nil] at hd
      rw [bulletPiece_getLast] at hd
      cases hd
      by_cases hb : c = bulletChar
      · rw [if_pos hb]; decide
      · rw [if_neg hb]
        apply hl
        rw [hrest]
        rfl
    | cons e rest' =>
      have hfne : fixBullets rest ≠ [] := by
        rw [hrest]
        intro h
        exact absurd ((fixBullets_eq_nil_iff _).mp h) (by simp)
      rw [List.getLast?_append_of_ne_nil _ hfne] at hd
      refine fixBullets_getLast?_not rest ?_ d hd
      intro c' hc'
      apply hl
      rw [hrest] at hc' ⊢
      rw [List.getLast?_cons_cons]
      exact hc'

theorem bulletPiece_chain (c : Char) :
    List.Chain' (fun a b => ¬(a = ' ' ∧ b = ' ')) (bulletPiece c) := by
  rw [bulletPiece]
  split
  · rw [bulletRepl]
    refine List.chain'_cons.mpr ⟨?_, List.chain'_cons.mpr ⟨?_, List.chain'_singleton _⟩⟩
    · rintro ⟨h, _⟩; exact absurd h (by decide)
    · rintro ⟨h, _⟩; exact absurd h (by decide)
  · exact List.chain'_singleton _

theorem fixBullets_chain : ∀ u : List Char, noDoubleSpace u →
    noDoubleSpace (fixBullets u)
  | [], _ => List.chain'_nil
  | c :: rest, h => by
    rw [fixBullets_cons]
    refine List.chain'_append.mpr ⟨bulletPiece_chain c,
      fixBullets_chain rest (List.chain'_cons'.mp h).2, ?_⟩
    intro x hx y hy
    rw [bulletPiece_getLast, Option.mem_def, Option.some_inj] at hx
    by_cases hb : c = bulletChar
    · rw [if_pos hb] at hx
      rintro ⟨hx', _⟩
      rw [← hx] at hx'
      exact absurd hx' (by decide)
    · rw [if_neg hb] at hx
      cases rest with
      | nil => simp [fixBullets_nil] at hy
      | cons d rest' =>
        rw [fixBullets_cons,
          List.head?_append_of_ne_nil _ (bulletPiece_ne_nil d), bulletPiece_head,
          Option.mem_def, Option.some_inj] at hy
        by_cases hbd : d = bulletChar
        · rw [if_pos hbd] at hy
          rintro ⟨_, hy'⟩
          rw [← hy] at hy'
          exact absurd hy' (by decide)
        · rw [if_neg hbd] at hy
          rw [← hx, ← hy]
          exact (List.chain'_cons'.mp h).1 d rfl

theorem bulletChar_not_in_fixBullets (u : List Char) :
    bulletChar ∉ fixBullets u := by
  intro hmem
  rw [fixBullets] at hmem
  rcases List.mem_flatten.mp hmem with ⟨piece, hpiece, hdp⟩
  rcases List.mem_map.mp hpiece with ⟨c, _, rfl⟩
  rw [bulletPiece] at hdp
  by_cases hb : c = bulletChar
  · rw [if_pos hb] at hdp
    exact absurd hdp (by decide)
  · rw [if_neg hb] at hdp
    exact hb (List.mem_singleton.mp hdp).symm

theorem fixBullets_id : ∀ u : List Char, bulletChar ∉ u → fixBullets u = u
  | [], _ => rfl
  | c :: rest, h => by
    have hcb : ¬(c = bulletChar) := by
      intro hc
      subst hc
      exact h (List.mem_cons_self _ _)
    rw [fixBullets_cons, bulletPiece, if_neg hcb,
      fixBullets_id rest (fun hm => h (List.mem_cons_of_mem _ hm))]
    rfl

/-! ### Normalization: header scan and newline squeeze on newline-free text -/

theorem headerScanGo_no_nl : ∀ (s : List Char) (fuel : Nat), '\n' ∉ s →
    headerScanGo fuel s = s
  | _, 0, _ => rfl
  | [], _ + 1, _ => rfl
  | c :: rest, fuel + 1, h => by
    have hc : ¬(c = '\n') := fun he => h (he ▸ List.mem_cons_self c rest)
    rw [headerScanGo, if_neg hc,
      headerScanGo_no_nl rest fuel (fun hm => h (List.mem_cons_of_mem _ hm))]

theorem headerScan_no_nl (s : List Char) (h : '\n' ∉ s) : headerScan s = s :=
  headerScanGo_no_nl s s.length h

theorem squeezeNlAux_no_nl : ∀ s : List Char, '\n' ∉ s → squeezeNlAux 0 s = s
  | [], _ => rfl
  | c :: rest, h => by
    have hc : ¬(c = '\n') := fun he => h (he ▸ List.mem_cons_self c rest)
    rw [squeezeNlAux, if_neg hc,
      squeezeNlAux_no_nl rest (fun hm => h (List.mem_cons_of_mem _ hm))]
    rfl

theorem squeezeNl_no_nl (s : List Char) (h : '\n' ∉ s) : squeezeNl s = s :=
  squeezeNlAux_no_nl s h

theorem no_nl_of_onlySpaceWs {s : List Char} (h : onlySpaceWs s) : '\n' ∉ s :=
  fun hm => absurd (h _ hm nl_is_ws) (by decide)

/-- C4: post-extraction text normalization is idempotent — cleaning twice
yields the same string as cleaning once, for every input.  After the
`\s+ → ' '` collapse and strip, the text contains no whitespace other
than single interior `' '` characters, so every later substitution
(form-feed removal, the newline-anchored header rewrite, the newline
squeeze) and a second full pass leave it unchanged. -/
theorem C4_clean_idempotent (t : List Char) :
    cleanExtractedText (cleanExtractedText t) = cleanExtractedText t := by
  by_cases ht : t.isEmpty = true
  · have h1 : cleanExtractedText t = [] := by rw [cleanExtractedText, if_pos ht]
    rw [h1]
    rfl
  · have huw : onlySpaceWs (pyStrip (collapseWs t)) :=
      pyStrip_onlySpaceWs (collapseWsAux_ws false t)
    have huc : noDoubleSpace (pyStrip (collapseWs t)) :=
      pyStrip_noDoubleSpace (collapseWsAux_chain t false)
    have hvw : onlySpaceWs (fixBullets (pyStrip (collapseWs t))) :=
      fixBullets_onlySpaceWs huw
    have hvc : noDoubleSpace (fixBullets (pyStrip (collapseWs t))) :=
      fixBullets_chain _ huc
    have hvnl : '\n' ∉ fixBullets (pyStrip (collapseWs t)) :=
      no_nl_of_onlySpaceWs hvw
    have hvh : ∀ c, (fixBullets (pyStrip (collapseWs t))).head? = some c →
        isPySpace c = false :=
      fixBullets_head?_not (pyStrip_head?_not (collapseWs t))
    have hvl : ∀ c, (fixBullets (pyStrip (collapseWs t))).getLast? = some c →
        isPySpace c = false :=
      fixBullets_getLast?_not _ (pyStrip_getLast?_not (collapseWs t))
    have hstrip : pyStrip (fixBullets (pyStrip (collapseWs t))) =
        fixBullets (pyStrip (collapseWs t)) :=
      pyStrip_eq_self _ hvh hvl
    have h1 : cleanExtractedText t = fixBullets (pyStrip (collapseWs t)) := by
      rw [cleanExtractedText, if_neg ht, removeFormFeed_id huw,
        headerScan_no_nl _ hvnl, squeezeNl_no_nl _ hvnl, hstrip]
    rw [h1]
    by_cases hv0 : (fixBullets (pyStrip (collapseWs t))).isEmpty = true
    · rw [cleanExtractedText, if_pos hv0]
      exact (List.isEmpty_iff.mp hv0).symm
    · rw [cleanExtractedText, if_neg hv0, collapseWs_id _ hvw hvc, hstrip,
        removeFormFeed_id hvw, fixBullets_id _ (bulletChar_not_in_fixBullets _),
        headerScan_no_nl _ hvnl, squeezeNl_no_nl _ hvnl, hstrip]

/-! ### C5: fenced JSON equals bare JSON -/

theorem parseValue_backtick : ∀ (fuel : Nat) (rest : List Char),
    parseValue fuel (backtickChar :: rest) = none
  | 0, _ => rfl
  | _ + 1, _ => rfl

theorem loads_backtick (rest : List Char) : loads (backtickChar :: rest) = none := by
  rw [loads, parseValue_backtick]

theorem wrapFence_false (s : List Char) :
    wrapFence false s =
      backtickChar :: backtickChar :: backtickChar :: '\n' ::
        (s ++ '\n' :: fenceTicks) := by
  simp [wrapFence, fenceHeader, fenceTicks]

theorem wrapFence_true (s : List Char) :
    wrapFence true s =
      backtickChar :: backtickChar :: backtickChar :: 'j' :: 's' :: 'o' :: 'n' ::
        '\n' :: (s ++ '\n' :: fenceTicks) := by
  simp [wrapFence, fenceHeader, fenceTicks]

theorem findNlFence_append : ∀ s : List Char, '\n' ∉ s →
    findNlFence (s ++ '\n' :: fenceTicks) = some s
  | [], _ => rfl
  | c :: s', h => by
    have hc : ¬(c = '\n') := fun he => h (he ▸ List.mem_cons_self c s')
    rw [List.cons_append, findNlFence, if_neg (fun hand => hc hand.1),
      findNlFence_append s' (fun hm => h (List.mem_cons_of_mem _ hm))]
    rfl

theorem fenceAt_cons_false (s : List Char) :
    fenceAt (backtickChar :: backtickChar :: backtickChar :: '\n' ::
      (s ++ '\n' :: fenceTicks)) = findNlFence (s ++ '\n' :: fenceTicks) := by
  rw [fenceAt, if_neg (by simp [startsWithChars, fenceTicks, backtickChar]),
    if_pos (by simp [startsWithChars, startsWithChars_nil, fenceTicks, backtickChar])]
  rfl

theorem fenceAt_cons_true (s : List Char) :
    fenceAt (backtickChar :: backtickChar :: backtickChar :: 'j' :: 's' :: 'o' ::
      'n' :: '\n' :: (s ++ '\n' :: fenceTicks)) =
      findNlFence (s ++ '\n' :: fenceTicks) := by
  rw [fenceAt,
    if_pos (by simp [startsWithChars, startsWithChars_nil, fenceTicks, backtickChar])]
  rfl

theorem findFence_cons (c : Char) (rest : List Char) :
    findFence (c :: rest) =
      match fenceAt (c :: rest) with
      | some inner => some inner
      | none => findFence rest := rfl

theorem findFence_wrap (b : Bool) (s : List Char) (hnl : '\n' ∉ s) :
    findFence (wrapFence b s) = some s := by
  cases b
  · rw [wrapFence_false, findFence_cons, fenceAt_cons_false,
      findNlFence_append s hnl]
  · rw [wrapFence_true, findFence_cons, fenceAt_cons_true,
      findNlFence_append s hnl]

theorem wrapFence_head (b : Bool) (s : List Char) :
    (wrapFence b s).head? = some backtickChar := by
  cases b
  · rw [wrapFence_false]; rfl
  · rw [wrapFence_true]; rfl

theorem wrapFence_getLast (b : Bool) (s : List Char) :
    (wrapFence b s).getLast? = some backtickChar := by
  rw [wrapFence, List.getLast?_append_of_ne_nil _ (by simp)]
  rfl

theorem pyStrip_wrapFence (b : Bool) (s : List Char) :
    pyStrip (wrapFence b s) = wrapFence b s := by
  refine pyStrip_eq_self _ ?_ ?_
  · intro c hc
    rw [wrapFence_head] at hc
    cases hc
    decide
  · intro c hc
    rw [wrapFence_getLast] at hc
    cases hc
    decide

theorem loads_wrapFence (b : Bool) (s : List Char) :
    loads (wrapFence b s) = none := by
  cases b
  · rw [wrapFence_false]; exact loads_backtick _
  · rw [wrapFence_true]; exact loads_backtick _

/-- C5: the interpretation stage of `optimize_resume` recovers a JSON
value wrapped in a fenced code block (with either `` ``` `` or
`` ```json `` as the opening delimiter) identically to the bare
serialization: for every single-line string `s` that parses as JSON
(every `json.dumps` output of an object is such a string), the fenced and
the bare responses both yield the same parsed value. -/
theorem C5_fenced_json_equals_bare (b : Bool) (s : List Char) (j : PyJson)
    (hload : loads (pyStrip s) = some j) (hnl : '\n' ∉ s) :
    parseGroqResponse (wrapFence b s) = some j ∧ parseGroqResponse s = some j := by
  constructor
  · rw [parseGroqResponse, pyStrip_wrapFence, loads_wrapFence,
      findFence_wrap b s hnl]
    exact hload
  · rw [parseGroqResponse, hload]

/-- Witness for C5 at the concrete object `{"a": 1}`. -/
theorem C5_fenced_json_equals_bare_witness :
    parseGroqResponse (wrapFence true jsonSample) =
      some (PyJson.jobj [(['a'], PyJson.jnum 1)]) ∧
    parseGroqResponse jsonSample = some (PyJson.jobj [(['a'], PyJson.jnum 1)]) :=
  C5_fenced_json_equals_bare true jsonSample (PyJson.jobj [(['a'], PyJson.jnum 1)])
    rfl (by decide)

/-! ### C6: required fields vs field-level defaults -/

/-- C6 fails as stated: a response whose JSON parses fine but lacks the
required `score` field is rejected wholesale — the interpreter raises
`ValueError` at line 456 and the handler at line 476 returns the error
dict with the original resume text and score 0, not a partially
structured result with a defaulted score. -/
theorem C6_counterexample_missing_score_rejected :
    parseGroqResponse missingScoreRaw = some (PyJson.jobj missingScoreFields) ∧
    (optimizeResume (List.replicate 60 'a') true
      (GroqOutcome.response missingScoreRaw)).status = OptStatus.error ∧
    (optimizeResume (List.replicate 60 'a') true
      (GroqOutcome.response missingScoreRaw)).optimized_text =
      PyJson.jstr (List.replicate 60 'a') ∧
    (optimizeResume (List.replicate 60 'a') true
      (GroqOutcome.response missingScoreRaw)).score = 0 := by
  refine ⟨rfl, rfl, rfl, rfl⟩

/-- C6 amended: field-level defaults apply only to fields that are
present: a parsed object missing any of the three required fields is
rejected wholesale (error dict with the original text), while for present
fields a numeric `score` is clamped into `[0, 100]` and a string-valued
`suggestions` is normalized into a list of its non-blank lines. -/
theorem C6_defaults_apply_only_when_required_present
    (text raw : List Char) (fields : List (List Char × PyJson))
    (hlen : ¬(text.isEmpty = true ∨ (pyStrip text).length < 50))
    (hparse : parseGroqResponse raw = some (PyJson.jobj fields)) :
    (requiredPresent fields = false →
      optimizeResume text true (GroqOutcome.response raw) =
        errResult text parseFailMsg) ∧
    (∀ (n : Int) (xs : List PyJson), requiredPresent fields = true →
      objGet fields "score".data = some (PyJson.jnum n) →
      objGet fields "suggestions".data = some (PyJson.jarr xs) →
      (optimizeResume text true (GroqOutcome.response raw)).status =
        OptStatus.success ∧
      (optimizeResume text true (GroqOutcome.response raw)).score =
        max 0 (min 100 n) ∧
      (optimizeResume text true (GroqOutcome.response raw)).optimized_text =
        (objGet fields "optimized_text".data).getD PyJson.jnull) ∧
    (∀ s : List Char, requiredPresent fields = true →
      objGet fields "suggestions".data = some (PyJson.jstr s) →
      (optimizeResume text true (GroqOutcome.response raw)).suggestions =
        ((splitOnNl s).filter fun l => !(pyStrip l).isEmpty).map PyJson.jstr) := by
  have hopt : optimizeResume text true (GroqOutcome.response raw) =
      validateResult (PyJson.jobj fields) text := by
    rw [optimizeResume, if_neg hlen, if_neg (by simp), hparse]
  refine ⟨?_, ?_, ?_⟩
  · intro hreq
    rw [hopt, validateResult, if_neg (by simp [hreq])]
  · intro n xs hreq hscore hsug
    rw [hopt, validateResult, if_pos hreq, hsug]
    simp only [Option.getD_some, normalizeSuggestions, hscore]
    simp [pyFloat]
  · intro s hreq hsug
    rw [hopt, validateResult, if_pos hreq, hsug]
    simp only [Option.getD_some, normalizeSuggestions]

/-- Witness for the amended C6: the concrete missing-`score` response is
rejected wholesale. -/
theorem C6_defaults_witness :
    optimizeResume (List.replicate 60 'a') true
      (GroqOutcome.response missingScoreRaw) =
      errResult (List.replicate 60 'a') parseFailMsg := by
  have h := C6_defaults_apply_only_when_required_present
    (List.replicate 60 'a') missingScoreRaw missingScoreFields
    (by decide) rfl
  exact h.1 rfl

/-! ### C10: invariants of every result dict -/

theorem errResult_invariants (text msg : List Char) :
    0 ≤ (errResult text msg).score ∧ (errResult text msg).score ≤ 100 ∧
    (errResult text msg).status = OptStatus.error ∧
    (errResult text msg).optimized_text = PyJson.jstr text := by
  refine ⟨le_refl 0, by norm_num [errResult], rfl, rfl⟩

theorem validateResult_invariants (parsed : PyJson) (text : List Char) :
    0 ≤ (validateResult parsed text).score ∧
    (validateResult parsed text).score ≤ 100 ∧
    ((validateResult parsed text).status = OptStatus.success ∨
      (validateResult parsed text).status = OptStatus.error) ∧
    ((validateResult parsed text).status = OptStatus.error →
      (validateResult parsed text).optimized_text = PyJson.jstr text ∧
      (validateResult parsed text).score = 0) := by
  cases parsed with
  | jobj fields =>
    rw [validateResult]
    by_cases hreq : requiredPresent fields = true
    · rw [if_pos hreq]
      cases hnorm : normalizeSuggestions ((objGet fields "suggestions".data).getD .jnull) with
      | none =>
        rcases errResult_invariants text parseFailMsg with ⟨h1, h2, h3, h4⟩
        exact ⟨h1, h2, Or.inr h3, fun _ => ⟨h4, rfl⟩⟩
      | some sug =>
        refine ⟨?_, ?_, Or.inl rfl, fun h => OptStatus.noConfusion h⟩
        · cases hf : pyFloat ((objGet fields "score".data).getD .jnull) with
          | none => exact le_refl 0
          | some n => exact le_max_left 0 _
        · cases hf : pyFloat ((objGet fields "score".data).getD .jnull) with
          | none => norm_num
          | some n => exact max_le (by norm_num) (min_le_left _ _)
    · rw [if_neg hreq]
      rcases errResult_invariants text parseFailMsg with ⟨h1, h2, h3, h4⟩
      exact ⟨h1, h2, Or.inr h3, fun _ => ⟨h4, rfl⟩⟩
  | jnull =>
    rcases errResult_invariants text parseFailMsg with ⟨h1, h2, h3, h4⟩
    exact ⟨h1, h2, Or.inr h3, fun _ => ⟨h4, rfl⟩⟩
  | jbool b =>
    rcases errResult_invariants text parseFailMsg with ⟨h1, h2, h3, h4⟩
    exact ⟨h1, h2, Or.inr h3, fun _ => ⟨h4, rfl⟩⟩
  | jnum n =>
    rcases errResult_invariants text parseFailMsg with ⟨h1, h2, h3, h4⟩
    exact ⟨h1, h2, Or.inr h3, fun _ => ⟨h4, rfl⟩⟩
  | jstr s =>
    rcases errResult_invariants text parseFailMsg with ⟨h1, h2, h3, h4⟩
    exact ⟨h1, h2, Or.inr h3, fun _ => ⟨h4, rfl⟩⟩
  | jarr xs =>
    rcases errResult_invariants text parseFailMsg with ⟨h1, h2, h3, h4⟩
    exact ⟨h1, h2, Or.inr h3, fun _ => ⟨h4, rfl⟩⟩

/-- C10: every result dict returned by `GroqClient.optimize_resume` — and
by the wrapper `ResumeOptimizer.optimize_resume` — has a `score` in
`[0, 100]` and a `status` that is `success` or `error`, and on every
error path the returned `optimized_text` is the input resume text
unchanged with score `0.0`. -/
theorem C10_result_invariants :
    (∀ (text : List Char) (enabled : Bool) (outcome : GroqOutcome),
      0 ≤ (optimizeResume text enabled outcome).score ∧
      (optimizeResume text enabled outcome).score ≤ 100 ∧
      ((optimizeResume text enabled outcome).status = OptStatus.success ∨
        (optimizeResume text enabled outcome).status = OptStatus.error) ∧
      ((optimizeResume text enabled outcome).status = OptStatus.error →
        (optimizeResume text enabled outcome).optimized_text = PyJson.jstr text ∧
        (optimizeResume text enabled outcome).score = 0)) ∧
    (∀ (text : List Char) (clientOk : Bool) (inner : OptResult),
      0 ≤ (optimizerOptimize text clientOk inner).score ∧
      (optimizerOptimize text clientOk inner).score ≤ 100 ∧
      ((optimizerOptimize text clientOk inner).status = OptStatus.success ∨
        (optimizerOptimize text clientOk inner).status = OptStatus.error) ∧
      ((optimizerOptimize text clientOk inner).status = OptStatus.error →
        (optimizerOptimize text clientOk inner).optimized_text = PyJson.jstr text ∧
        (optimizerOptimize text clientOk inner).score = 0)) := by
  constructor
  · intro text enabled outcome
    rw [optimizeResume.eq_def]
    by_cases h1 : text.isEmpty = true ∨ (pyStrip text).length < 50
    · rw [if_pos h1]
      rcases errResult_invariants text tooShortMsg with ⟨a1, a2, a3, a4⟩
      exact ⟨a1, a2, Or.inr a3, fun _ => ⟨a4, rfl⟩⟩
    · rw [if_neg h1]
      by_cases h2 : enabled = true
      · rw [if_neg (by simp [h2])]
        cases outcome with
        | requestFailed =>
          rcases errResult_invariants text requestFailMsg with ⟨a1, a2, a3, a4⟩
          exact ⟨a1, a2, Or.inr a3, fun _ => ⟨a4, rfl⟩⟩
        | response raw =>
          cases hp : parseGroqResponse raw with
          | some parsed =>
            simp only [hp]
            exact validateResult_invariants parsed text
          | none =>
            simp only [hp]
            rcases errResult_invariants text parseFailMsg with ⟨a1, a2, a3, a4⟩
            exact ⟨a1, a2, Or.inr a3, fun _ => ⟨a4, rfl⟩⟩
      · rw [if_pos (by simp [h2])]
        rcases errResult_invariants text notEnabledMsg with ⟨a1, a2, a3, a4⟩
        exact ⟨a1, a2, Or.inr a3, fun _ => ⟨a4, rfl⟩⟩
  · intro text clientOk inner
    rw [optimizerOptimize]
    by_cases h1 : text.isEmpty = true ∨ (pyStrip text).length < 50
    · rw [if_pos h1]
      rcases errResult_invariants text optimizerTooShortMsg with ⟨a1, a2, a3, a4⟩
      exact ⟨a1, a2, Or.inr a3, fun _ => ⟨a4, rfl⟩⟩
    · rw [if_neg h1]
      by_cases h2 : clientOk = true
      · rw [if_neg (by simp [h2])]
        refine ⟨?_, ?_, Or.inl rfl, fun h => OptStatus.noConfusion h⟩
        · exact le_min (le_max_right _ _) (by norm_num)
        · exact min_le_right _ _
      · rw [if_pos (by simp [h2])]
        rcases errResult_invariants text optimizerNotConfiguredMsg with ⟨a1, a2, a3, a4⟩
        exact ⟨a1, a2, Or.inr a3, fun _ => ⟨a4, rfl⟩⟩
